import Mathlib

/-!
Verification of the DevInsight RAG pipeline core: the chunker
(`src/lib/chunker.js`), the in-memory vector store and retrieval path
(`src/lib/chromadb.js`, the `global.vectorStore` implementation), the
embedding batch loop (`src/lib/embeddings.js`), the repository listing
(`src/lib/github.js`) and the ingestion handler
(`src/pages/api/process-repo.js`).

JavaScript numbers are modelled as real numbers, strings as Lean
strings, and the fallible external calls (GitHub API, embedding API)
as explicit `Except`/`Option`-valued oracles passed in as parameters.
-/

namespace DevInsight

/-! ### Token estimation (`estimateTokens`, chunker.js lines 6-8)

The source is `text.split(/\s+/).length`.  For a JavaScript string the
length of that split is `1 +` the number of maximal whitespace runs in
the text (the split keeps the empty fragments produced by a leading or
a trailing run, and splitting the empty string yields `[""]`). -/

/-- Whitespace class used by the `\s` regexes of the chunker. -/
def isWs (c : Char) : Bool := c.isWhitespace

/-- Number of maximal whitespace runs; the flag records whether the
previous character was whitespace. -/
def wsRunsAux : Bool → List Char → Nat
  | _, [] => 0
  | inWs, c :: cs =>
    if isWs c then (if inWs then 0 else 1) + wsRunsAux true cs
    else wsRunsAux false cs

/-- Model of `estimateTokens(text) = text.split(/\s+/).length`. -/
def estimateTokens (s : String) : Nat := 1 + wsRunsAux false s.data

/-! ### Character-level scanning helpers used to model the regexes -/

/-- JavaScript `\w` class: ASCII letters, digits and underscore. -/
def isWordChar (c : Char) : Bool := c.isAlphanum || c == '_'

/-- Consume a nonempty maximal run of characters satisfying `p`;
returns the run and the rest, or `none` when the first character
fails `p`.  Models a greedy `X+` on a character class. -/
def munch1 (p : Char → Bool) (cs : List Char) : Option (List Char × List Char) :=
  match cs with
  | [] => none
  | c :: rest => if p c then some (c :: rest.takeWhile p, rest.dropWhile p) else none

/-- Consume a literal keyword; models a literal in a regex. -/
def lit (kw : String) (cs : List Char) : Option (List Char) :=
  if kw.data.isPrefixOf cs then some (cs.drop kw.data.length) else none

/-- Try a pattern at every start position, left to right (including the
end-of-string position), as an unanchored regex search does. -/
def scanFor {α : Type} (f : List Char → Option α) : List Char → Option α
  | [] => f []
  | c :: cs =>
    match f (c :: cs) with
    | some a => some a
    | none => scanFor f cs

/-- Count occurrences of a character in a string (used for `{`/`}`
depth tracking: `(line.match(/\{/g) || []).length`). -/
def countChar (c : Char) (s : String) : Nat := s.data.count c

/-- Split on a single separator character, modelling JavaScript
`s.split(sep)` (keeps empty fragments, including a trailing one). -/
def splitCharAux (sep : Char) : List Char → List Char → List String
  | [], acc => [String.mk acc.reverse]
  | c :: cs, acc =>
    if c == sep then String.mk acc.reverse :: splitCharAux sep cs []
    else splitCharAux sep cs (c :: acc)

/-- JavaScript `s.split(sep)` for a one-character separator. -/
def splitChar (sep : Char) (s : String) : List String := splitCharAux sep s.data []

/-- JavaScript `s.trim()`: strip whitespace from both ends. -/
def trimStr (s : String) : String :=
  String.mk (((s.data.dropWhile isWs).reverse.dropWhile isWs).reverse)

/-- JavaScript `s.startsWith(pre)`. -/
def startsWithStr (s pre : String) : Bool := pre.data.isPrefixOf s.data

/-- JavaScript `s.toLowerCase()` (ASCII, which is all this code base
feeds it). -/
def toLowerStr (s : String) : String := String.mk (s.data.map Char.toLower)

/-- Substring test, modelling JavaScript `line.includes(sub)`: `sub`
is a prefix of some suffix of `s`. -/
def containsSub (s sub : String) : Bool := (scanFor (lit sub) s.data).isSome

/-! ### Chunk data model (chunker.js)

Every chunk carries `{content, metadata:{path, language, extension,
chunkType, name}}`. -/

structure FileMeta where
  path : String
  language : String
  extension : String
deriving Repr, DecidableEq

structure ChunkMeta where
  path : String
  language : String
  extension : String
  chunkType : String
  name : String
deriving Repr, DecidableEq

structure Chunk where
  content : String
  metadata : ChunkMeta
deriving Repr, DecidableEq

/-- Append a chunk built from the file metadata, content and name, as
every `chunks.push({content, metadata: {...fileMetadata, chunkType:
'code', name}})` site in chunker.js does. -/
def pushChunk (fm : FileMeta) (content : String) (nm : String) (cs : List Chunk) : List Chunk :=
  cs ++ [{ content := content,
           metadata := { path := fm.path, language := fm.language,
                         extension := fm.extension, chunkType := "code", name := nm } }]

/-- Model of the JavaScript falsy-default `name || 'fallback'` on a
string: the empty string is the only falsy string. -/
def orDefault (nm fallback : String) : String := if nm == "" then fallback else nm

/-! ### JS/TS declaration regexes (chunker.js lines 117-147) -/

/-- Match `/function\s+(\w+)\s*\(/` at the head of `cs`, returning the
captured name.  The greedy classes are pairwise disjoint at their
boundaries, so no backtracking is possible. -/
def jsFunctionAt (cs : List Char) : Option String :=
  (lit ("function") cs).bind fun r1 =>
  (munch1 isWs r1).bind fun p1 =>
  (munch1 isWordChar p1.2).bind fun p2 =>
  match p2.2.dropWhile isWs with
  | '(' :: _ => some (String.mk p2.1)
  | _ => none

/-- Match `/class\s+(\w+)/` at the head of `cs`. -/
def jsClassAt (cs : List Char) : Option String :=
  (lit ("class") cs).bind fun r1 =>
  (munch1 isWs r1).bind fun p1 =>
  (munch1 isWordChar p1.2).map fun p2 => String.mk p2.1

/-- Match `/const\s+(\w+)\s*=\s*(\(\s*\)|function|\{)/` at the head of
`cs` (the detection pattern for arrow/function/object constants). -/
def jsConstDeclAt (cs : List Char) : Option String :=
  (lit ("const") cs).bind fun r1 =>
  (munch1 isWs r1).bind fun p1 =>
  (munch1 isWordChar p1.2).bind fun p2 =>
  match p2.2.dropWhile isWs with
  | '=' :: r3 =>
    let r4 := r3.dropWhile isWs
    match r4 with
    | '(' :: r5 =>
      (match r5.dropWhile isWs with
       | ')' :: _ => some (String.mk p2.1)
       | _ => none)
    | '\x7b' :: _ => some (String.mk p2.1)
    | _ => (lit ("function") r4).map fun _ => String.mk p2.1
  | _ => none

/-- Match `/const\s+(\w+)\s*=/` at the head of `cs` (the looser name
extraction pattern `constMatch`). -/
def jsConstEqAt (cs : List Char) : Option String :=
  (lit ("const") cs).bind fun r1 =>
  (munch1 isWs r1).bind fun p1 =>
  (munch1 isWordChar p1.2).bind fun p2 =>
  match p2.2.dropWhile isWs with
  | '=' :: _ => some (String.mk p2.1)
  | _ => none

/-- Match `/export\s+(default\s+)?kind\s+(\w+)/` at the head of `cs`
for `kind` = `function` or `class`.  The optional `default` group is
tried greedily first; if the continuation fails the group is dropped,
as regex backtracking does. -/
def jsExportAt (kind : String) (cs : List Char) : Option String :=
  (lit ("export") cs).bind fun r1 =>
  (munch1 isWs r1).bind fun p1 =>
  let tail := fun (r : List Char) =>
    (lit kind r).bind fun r3 =>
    (munch1 isWs r3).bind fun p3 =>
    (munch1 isWordChar p3.2).map fun p4 => String.mk p4.1
  match (lit ("default") p1.2).bind fun r2 => (munch1 isWs r2).map Prod.snd with
  | some r2d =>
    (match tail r2d with
     | some n => some n
     | none => tail p1.2)
  | none => tail p1.2

/-- Detection condition of chunker.js lines 117-122: the line matches
one of the five declaration regexes (unanchored search). -/
def jsDeclDetect (line : String) : Bool :=
  (scanFor jsFunctionAt line.data).isSome ||
  (scanFor jsClassAt line.data).isSome ||
  (scanFor jsConstDeclAt line.data).isSome ||
  (scanFor (jsExportAt ("function")) line.data).isSome ||
  (scanFor (jsExportAt ("class")) line.data).isSome

/-- Name extraction of chunker.js lines 136-147: the five extraction
regexes are tried in order; when none matches the previous name is
kept. -/
def jsExtractName (line : String) (old : String) : String :=
  match scanFor jsFunctionAt line.data with
  | some n => n
  | none =>
    match scanFor jsClassAt line.data with
    | some n => n
    | none =>
      match scanFor jsConstEqAt line.data with
      | some n => n
      | none =>
        match scanFor (jsExportAt ("function")) line.data with
        | some n => n
        | none =>
          match scanFor (jsExportAt ("class")) line.data with
          | some n => n
          | none => old

/-! ### JS/TS chunker (`chunkJSTS`, chunker.js lines 79-186) -/

/-- First pass (lines 90-100): collect the leading run of lines whose
trimmed text starts with `import ` or `export `; blank lines are
tolerated (and skipped) inside the run; the first other nonblank line
ends the run. -/
def collectJSImports : List String → String
  | [] => ""
  | l :: ls =>
    if startsWithStr (trimStr l) ("import ") || startsWithStr (trimStr l) ("export ") then
      l ++ "\n" ++ collectJSImports ls
    else if trimStr l == "" then collectJSImports ls
    else ""

structure JSState where
  currentChunk : String
  currentChunkName : String
  blockDepth : Int
  inImportSection : Bool
  chunks : List Chunk
deriving Repr

/-- The token-limit check at the end of each `chunkJSTS` iteration
(lines 159-170): flush the accumulation when its estimate exceeds
`maxTokens` and the brace depth is back to 0. -/
def jstsSizeCheck (fm : FileMeta) (imports : String) (maxTokens : Nat)
    (st : JSState) : JSState :=
  if decide (maxTokens < estimateTokens st.currentChunk) && st.blockDepth == 0 then
    { st with
      chunks := pushChunk fm (imports ++ st.currentChunk)
                  (orDefault st.currentChunkName ("Unnamed section")) st.chunks
      currentChunk := "" }
  else st

/-- One iteration of the second pass of `chunkJSTS` (lines 105-171).
Note that the source sets `inImportSection = false` right before this
loop, so the skip branch modelled first is dead code there. -/
def jstsStep (fm : FileMeta) (imports : String) (maxTokens : Nat)
    (st : JSState) (line : String) : JSState :=
  if st.inImportSection &&
     (startsWithStr (trimStr line) ("import ") || startsWithStr (trimStr line) ("export ") || trimStr line == "") then
    st
  else
    let st1 := { st with inImportSection := false }
    let st2 :=
      if st1.blockDepth == 0 && jsDeclDetect line then
        let chunks' :=
          if trimStr st1.currentChunk == "" then st1.chunks
          else pushChunk fm (imports ++ st1.currentChunk)
                 (orDefault st1.currentChunkName ("Unnamed section")) st1.chunks
        { st1 with
          chunks := chunks'
          currentChunkName := jsExtractName line st1.currentChunkName
          currentChunk := line ++ "\n" }
      else
        { st1 with currentChunk := st1.currentChunk ++ line ++ "\n" }
    let depth' := st2.blockDepth + (countChar '\x7b' line : Int) - (countChar '\x7d' line : Int)
    jstsSizeCheck fm imports maxTokens { st2 with blockDepth := depth' }

/-- The state at the top of the second pass: the source sets
`inImportSection = false` there (line 102). -/
def jstsInitState : JSState :=
  { currentChunk := "", currentChunkName := "", blockDepth := 0,
    inImportSection := false, chunks := [] }

/-- Model of `chunkJSTS`. -/
def chunkJSTS (content : String) (fm : FileMeta) (maxTokens : Nat) : List Chunk :=
  let lines := splitChar '\n' content
  let imports := collectJSImports lines
  let stF := lines.foldl (jstsStep fm imports maxTokens) jstsInitState
  if trimStr stF.currentChunk == "" then stF.chunks
  else pushChunk fm (imports ++ stF.currentChunk)
         (orDefault stF.currentChunkName ("Unnamed section")) stF.chunks

/-! ### Fallback chunker (`chunkBySize`, chunker.js lines 820-859) -/

structure SizeState where
  currentChunk : String
  chunkNumber : Nat
  chunks : List Chunk
deriving Repr

/-- One iteration of the `chunkBySize` loop (lines 827-844): append the
line, flush when the estimate exceeds `maxTokens`. -/
def sizeStep (fm : FileMeta) (maxTokens : Nat) (st : SizeState) (line : String) : SizeState :=
  let cur := st.currentChunk ++ line ++ "\n"
  if maxTokens < estimateTokens cur then
    { currentChunk := ""
      chunkNumber := st.chunkNumber + 1
      chunks := pushChunk fm cur ("Chunk " ++ toString st.chunkNumber) st.chunks }
  else
    { st with currentChunk := cur }

/-- Model of `chunkBySize`: no preamble, sequentially numbered chunks. -/
def chunkBySize (content : String) (fm : FileMeta) (maxTokens : Nat) : List Chunk :=
  let lines := splitChar '\n' content
  let stF := lines.foldl (sizeStep fm maxTokens) { currentChunk := "", chunkNumber := 1, chunks := [] }
  if trimStr stF.currentChunk == "" then stF.chunks
  else pushChunk fm stF.currentChunk ("Chunk " ++ toString stF.chunkNumber) stF.chunks

/-! ### Python chunker (`chunkPython`, chunker.js lines 191-348) -/

/-- Match `/def\s+(\w+)\s*\(/` at the head of `cs`. -/
def pyDefAt (cs : List Char) : Option String :=
  (lit ("def") cs).bind fun r1 =>
  (munch1 isWs r1).bind fun p1 =>
  (munch1 isWordChar p1.2).bind fun p2 =>
  match p2.2.dropWhile isWs with
  | '(' :: _ => some (String.mk p2.1)
  | _ => none

/-- First pass (lines 204-213): collect leading `import `/`from `
lines; blank and `#` comment lines are skipped without ending the run;
any other nonblank line breaks. -/
def collectPyImports : List String → String
  | [] => ""
  | l :: ls =>
    if startsWithStr (trimStr l) ("import ") || startsWithStr (trimStr l) ("from ") then
      l ++ "\n" ++ collectPyImports ls
    else if trimStr l != "" && !(startsWithStr (trimStr l) ("#")) then ""
    else collectPyImports ls

structure PyState where
  currentChunk : String
  currentChunkName : String
  inImportSection : Bool
  inFunction : Bool
  inClass : Bool
  indentLevel : Nat
  chunks : List Chunk
deriving Repr

/-- One iteration of the second pass of `chunkPython` (lines 218-332).
The root-level test of line 230 trims the line first, so its
`startsWith(' ')`/`startsWith('\t')` conjuncts can never fire and the
branch is taken for every nonblank line; it is modelled literally. -/
def pyStep (fm : FileMeta) (imports : String) (maxTokens : Nat)
    (st : PyState) (line : String) : PyState :=
  if st.inImportSection &&
     (startsWithStr (trimStr line) ("import ") || startsWithStr (trimStr line) ("from ") ||
      trimStr line == "" || startsWithStr (trimStr line) ("#")) then
    st
  else
    let st1 := { st with inImportSection := false }
    let st2 :=
      if trimStr line != "" && !(startsWithStr (trimStr line) (" ")) && !(startsWithStr (trimStr line) ("\t")) then
        if startsWithStr (trimStr line) ("def ") then
          let chunks' :=
            if trimStr st1.currentChunk == "" then st1.chunks
            else pushChunk fm (imports ++ st1.currentChunk)
                   (orDefault st1.currentChunkName ("Unnamed section")) st1.chunks
          { st1 with
            chunks := chunks'
            currentChunkName := (scanFor pyDefAt line.data).getD ("Unnamed function")
            currentChunk := line ++ "\n", inFunction := true, indentLevel := 1 }
        else if startsWithStr (trimStr line) ("class ") then
          let chunks' :=
            if trimStr st1.currentChunk == "" then st1.chunks
            else pushChunk fm (imports ++ st1.currentChunk)
                   (orDefault st1.currentChunkName ("Unnamed section")) st1.chunks
          { st1 with
            chunks := chunks'
            currentChunkName := (scanFor jsClassAt line.data).getD ("Unnamed class")
            currentChunk := line ++ "\n", inClass := true, indentLevel := 1 }
        else if st1.inFunction || st1.inClass then
          { st1 with
            inFunction := false, inClass := false, indentLevel := 0
            chunks := pushChunk fm (imports ++ st1.currentChunk) st1.currentChunkName st1.chunks
            currentChunk := line ++ "\n", currentChunkName := "" }
        else
          { st1 with currentChunk := st1.currentChunk ++ line ++ "\n" }
      else if st1.inFunction || st1.inClass then
        let lineIndent := (line.data.takeWhile isWs).length
        if lineIndent == 0 && trimStr line != "" then
          { st1 with
            inFunction := false, inClass := false, indentLevel := 0
            chunks := pushChunk fm (imports ++ st1.currentChunk) st1.currentChunkName st1.chunks
            currentChunk := line ++ "\n", currentChunkName := "" }
        else
          { st1 with currentChunk := st1.currentChunk ++ line ++ "\n" }
      else
        { st1 with currentChunk := st1.currentChunk ++ line ++ "\n" }
    if decide (maxTokens < estimateTokens st2.currentChunk) && !st2.inFunction && !st2.inClass then
      { st2 with
        chunks := pushChunk fm (imports ++ st2.currentChunk)
                    (orDefault st2.currentChunkName ("Unnamed section")) st2.chunks
        currentChunk := "" }
    else st2

/-- Model of `chunkPython`. -/
def chunkPython (content : String) (fm : FileMeta) (maxTokens : Nat) : List Chunk :=
  let lines := splitChar '\n' content
  let imports := collectPyImports lines
  let st0 : PyState :=
    { currentChunk := "", currentChunkName := "", inImportSection := false,
      inFunction := false, inClass := false, indentLevel := 0, chunks := [] }
  let stF := lines.foldl (pyStep fm imports maxTokens) st0
  if trimStr stF.currentChunk == "" then stF.chunks
  else pushChunk fm (imports ++ stF.currentChunk)
         (orDefault stF.currentChunkName ("Unnamed section")) stF.chunks

/-! ### Java chunker (`chunkJava`, chunker.js lines 353-491) -/

/-- Preamble collection (lines 365-377): `package `/`import ` lines and
blank lines are appended until another line appears; returns the
preamble text and the remaining lines. -/
def collectJavaPre : List String → String × List String
  | [] => ("", [])
  | l :: ls =>
    if startsWithStr (trimStr l) ("package ") || startsWithStr (trimStr l) ("import ") || trimStr l == "" then
      let pr := collectJavaPre ls
      (l ++ "\n" ++ pr.1, pr.2)
    else ("", l :: ls)

/-- Match `/\s+(\w+)\s*\(/` at the head of `cs` (Java method name). -/
def javaMethodAt (cs : List Char) : Option String :=
  (munch1 isWs cs).bind fun p1 =>
  (munch1 isWordChar p1.2).bind fun p2 =>
  match p2.2.dropWhile isWs with
  | '(' :: _ => some (String.mk p2.1)
  | _ => none

/-- Match `(class|interface|enum)\s+(\w+)` at the head of `cs`; with
the optional visibility-modifier prefix and leading `\s*` of the
source regexes, an unanchored search for this core is equivalent for
both detection and capture. -/
def javaClassAt (cs : List Char) : Option String :=
  ((match lit ("class") cs with
    | some r => some r
    | none =>
      match lit ("interface") cs with
      | some r => some r
      | none => lit ("enum") cs) : Option (List Char)).bind fun r1 =>
  (munch1 isWs r1).bind fun p1 =>
  (munch1 isWordChar p1.2).map fun p2 => String.mk p2.1

structure JavaState where
  currentChunk : String
  currentChunkName : String
  blockDepth : Int
  inMethod : Bool
  inClass : Bool
  chunks : List Chunk
deriving Repr

/-- One iteration of the `chunkJava` main loop (lines 380-476). -/
def javaStep (fm : FileMeta) (pre : String) (maxTokens : Nat)
    (st : JavaState) (line : String) : JavaState :=
  let st2 :=
    if st.blockDepth == 1 &&
       (containsSub line ("public ") || containsSub line ("private ") ||
        containsSub line ("protected ") || containsSub line ("void ")) &&
       containsSub line ("(") && !containsSub line (";") then
      let chunks' :=
        if trimStr st.currentChunk != "" && st.inMethod then
          pushChunk fm (pre ++ st.currentChunk)
            (orDefault st.currentChunkName ("Unnamed method")) st.chunks
        else st.chunks
      { st with
        chunks := chunks'
        currentChunkName := (scanFor javaMethodAt line.data).getD ("Unnamed method")
        currentChunk := line ++ "\n", inMethod := true }
    else if st.blockDepth == 0 && (scanFor javaClassAt line.data).isSome then
      let chunks' :=
        if trimStr st.currentChunk == "" then st.chunks
        else pushChunk fm (pre ++ st.currentChunk)
               (orDefault st.currentChunkName ("Unnamed section")) st.chunks
      { st with
        chunks := chunks'
        currentChunkName := (scanFor javaClassAt line.data).getD ("Unnamed class")
        currentChunk := line ++ "\n", inClass := true }
    else
      { st with currentChunk := st.currentChunk ++ line ++ "\n" }
  let depth' := st2.blockDepth + (countChar '\x7b' line : Int) - (countChar '\x7d' line : Int)
  let st3 := { st2 with blockDepth := depth' }
  let st4 :=
    if st3.inMethod && decide (maxTokens < estimateTokens st3.currentChunk) && depth' == 1 then
      { st3 with
        chunks := pushChunk fm (pre ++ st3.currentChunk)
                    (orDefault st3.currentChunkName ("Unnamed method")) st3.chunks
        currentChunk := "", inMethod := false }
    else st3
  let st5 :=
    if st4.inMethod && depth' == 1 && trimStr line == "\x7d" then
      { st4 with
        chunks := pushChunk fm (pre ++ st4.currentChunk)
                    (orDefault st4.currentChunkName ("Unnamed method")) st4.chunks
        currentChunk := "", inMethod := false }
    else st4
  if st5.inClass && depth' == 0 && trimStr line == "\x7d" then
    let chunks' :=
      if !st5.inMethod && trimStr st5.currentChunk != "" then
        pushChunk fm (pre ++ st5.currentChunk)
          (orDefault st5.currentChunkName ("Unnamed class")) st5.chunks
      else st5.chunks
    { st5 with chunks := chunks', currentChunk := "", inClass := false, currentChunkName := "" }
  else st5

/-- Model of `chunkJava`. -/
def chunkJava (content : String) (fm : FileMeta) (maxTokens : Nat) : List Chunk :=
  let lines := splitChar '\n' content
  let pr := collectJavaPre lines
  let st0 : JavaState :=
    { currentChunk := "", currentChunkName := "", blockDepth := 0,
      inMethod := false, inClass := false, chunks := [] }
  let stF := pr.2.foldl (javaStep fm pr.1 maxTokens) st0
  if trimStr stF.currentChunk == "" then stF.chunks
  else pushChunk fm (pr.1 ++ stF.currentChunk)
         (orDefault stF.currentChunkName ("Unnamed section")) stF.chunks

/-! ### Go chunker (`chunkGo`, chunker.js lines 496-596) -/

/-- Preamble collection (lines 506-518): `package `/`import ` lines,
blank lines and `//` comment lines. -/
def collectGoPre : List String → String × List String
  | [] => ("", [])
  | l :: ls =>
    if startsWithStr (trimStr l) ("package ") || startsWithStr (trimStr l) ("import ") ||
       trimStr l == "" || startsWithStr (trimStr l) ("//") then
      let pr := collectGoPre ls
      (l ++ "\n" ++ pr.1, pr.2)
    else ("", l :: ls)

/-- Match `/func\s+(?:\([^)]+\)\s+)?(\w+)/` at the head of `cs`.  The
optional receiver group `\([^)]+\)\s+` is tried greedily first and the
engine falls back to the plain identifier when it cannot complete. -/
def goFuncAt (cs : List Char) : Option String :=
  (lit ("func") cs).bind fun r1 =>
  (munch1 isWs r1).bind fun p1 =>
  let direct := (munch1 isWordChar p1.2).map fun p => String.mk p.1
  match p1.2 with
  | '(' :: r3 =>
    (match munch1 (fun c => c != ')') r3 with
     | some p3 =>
       (match p3.2 with
        | ')' :: r5 =>
          (match (munch1 isWs r5).bind fun p5 => munch1 isWordChar p5.2 with
           | some p6 => some (String.mk p6.1)
           | none => direct)
        | _ => direct)
     | none => direct)
  | _ => direct

/-- Match `/type\s+(\w+)/` at the head of `cs`. -/
def goTypeAt (cs : List Char) : Option String :=
  (lit ("type") cs).bind fun r1 =>
  (munch1 isWs r1).bind fun p1 =>
  (munch1 isWordChar p1.2).map fun p2 => String.mk p2.1

structure GoState where
  currentChunk : String
  currentChunkName : String
  blockDepth : Int
  chunks : List Chunk
deriving Repr

/-- One iteration of the `chunkGo` main loop (lines 521-581). -/
def goStep (fm : FileMeta) (pre : String) (maxTokens : Nat)
    (st : GoState) (line : String) : GoState :=
  let st2 :=
    if st.blockDepth == 0 && startsWithStr (trimStr line) ("func ") then
      let chunks' :=
        if trimStr st.currentChunk == "" then st.chunks
        else pushChunk fm (pre ++ st.currentChunk)
               (orDefault st.currentChunkName ("Unnamed section")) st.chunks
      { st with
        chunks := chunks'
        currentChunkName := (scanFor goFuncAt line.data).getD ("Unnamed function")
        currentChunk := line ++ "\n" }
    else if st.blockDepth == 0 && startsWithStr (trimStr line) ("type ") && containsSub line ("struct") then
      let chunks' :=
        if trimStr st.currentChunk == "" then st.chunks
        else pushChunk fm (pre ++ st.currentChunk)
               (orDefault st.currentChunkName ("Unnamed section")) st.chunks
      { st with
        chunks := chunks'
        currentChunkName := (scanFor goTypeAt line.data).getD ("Unnamed struct")
        currentChunk := line ++ "\n" }
    else
      { st with currentChunk := st.currentChunk ++ line ++ "\n" }
  let depth' := st2.blockDepth + (countChar '\x7b' line : Int) - (countChar '\x7d' line : Int)
  let st3 := { st2 with blockDepth := depth' }
  if depth' == 0 && trimStr st3.currentChunk != "" &&
     (trimStr line == "\x7d" || decide (maxTokens < estimateTokens st3.currentChunk)) then
    { st3 with
      chunks := pushChunk fm (pre ++ st3.currentChunk)
                  (orDefault st3.currentChunkName ("Unnamed section")) st3.chunks
      currentChunk := "", currentChunkName := "" }
  else st3

/-- Model of `chunkGo`. -/
def chunkGo (content : String) (fm : FileMeta) (maxTokens : Nat) : List Chunk :=
  let lines := splitChar '\n' content
  let pr := collectGoPre lines
  let st0 : GoState :=
    { currentChunk := "", currentChunkName := "", blockDepth := 0, chunks := [] }
  let stF := pr.2.foldl (goStep fm pr.1 maxTokens) st0
  if trimStr stF.currentChunk == "" then stF.chunks
  else pushChunk fm (pr.1 ++ stF.currentChunk)
         (orDefault stF.currentChunkName ("Unnamed section")) stF.chunks

/-! ### C/C++ chunker (`chunkCCpp`, chunker.js lines 601-708) -/

/-- Preamble collection (lines 611-623): `#include`/`#define`/`#pragma`
lines, blank lines and `//` comment lines. -/
def collectCPre : List String → String × List String
  | [] => ("", [])
  | l :: ls =>
    if startsWithStr (trimStr l) ("#include") || startsWithStr (trimStr l) ("#define") ||
       startsWithStr (trimStr l) ("#pragma") || trimStr l == "" || startsWithStr (trimStr l) ("//") then
      let pr := collectCPre ls
      (l ++ "\n" ++ pr.1, pr.2)
    else ("", l :: ls)

/-- Separator class `[\s*]` of the C function pattern. -/
def isSepStar (c : Char) : Bool := isWs c || c == '*'

/-- Tail of the C function-signature match, entered right after a word
run: reads `([\s*]+ \w+)*` groups and accepts on `\s* (` when at least
two words were read and the separator before the last word was pure
whitespace — exactly the strings accepted (with backtracking) by
`^\s*\w+(?:[\s*]+\w+)*\s+\w+\s*\(`.  `fuel` bounds the recursion. -/
def ccSigTail (fuel : Nat) (r : List Char) (nWords : Nat) (prevPure : Bool) : Bool :=
  match fuel with
  | 0 => false
  | fuel + 1 =>
    let sep := r.takeWhile isSepStar
    let r2 := r.dropWhile isSepStar
    match r2 with
    | [] => false
    | c :: _ =>
      if c == '(' then decide (2 ≤ nWords) && prevPure && sep.all isWs
      else if isWordChar c && !sep.isEmpty then
        ccSigTail fuel (r2.dropWhile isWordChar) (nWords + 1) (sep.all isWs)
      else false

/-- Detection regex `/^\s*\w+(?:[\s*]+\w+)*\s+\w+\s*\(/` of chunker.js
line 631 (anchored at the start of the line). -/
def ccFuncDetect (line : String) : Bool :=
  let cs := line.data.dropWhile isWs
  match munch1 isWordChar cs with
  | none => false
  | some p => ccSigTail (p.2.length + 1) p.2 1 true

/-- Type-declaration regexes of lines 652-653:
`/^\s*(?:class|struct|enum|union)\s+\w+/` or
`/^\s*typedef\s+(?:struct|enum|union)\s+\w+/`. -/
def ccTypeDetect (line : String) : Bool :=
  let cs := line.data.dropWhile isWs
  let kwWord := fun (kw : String) (r : List Char) =>
    ((lit kw r).bind fun r1 =>
     (munch1 isWs r1).bind fun p1 =>
     munch1 isWordChar p1.2).isSome
  kwWord ("class") cs || kwWord ("struct") cs || kwWord ("enum") cs || kwWord ("union") cs ||
  ((lit ("typedef") cs).bind fun r1 =>
   (munch1 isWs r1).bind fun p1 =>
   (((match lit ("struct") p1.2 with
      | some r => some r
      | none =>
        match lit ("enum") p1.2 with
        | some r => some r
        | none => lit ("union") p1.2) : Option (List Char)).bind fun r2 =>
    (munch1 isWs r2).bind fun p2 =>
    munch1 isWordChar p2.2)).isSome

/-- Match `/\s(\w+)\s*\(/` at the head of `cs` (C function name: one
whitespace character, then the captured identifier). -/
def ccNameAt (cs : List Char) : Option String :=
  match cs with
  | c :: r =>
    if isWs c then
      (munch1 isWordChar r).bind fun p =>
      match p.2.dropWhile isWs with
      | '(' :: _ => some (String.mk p.1)
      | _ => none
    else none
  | [] => none

/-- Match `/(?:class|struct|enum|union|typedef)\s+(?:struct|enum|union)?\s*(\w+)/`
at the head of `cs`; when the optional second keyword matches but no
identifier follows, the engine backtracks and captures without it. -/
def ccTypeAt (cs : List Char) : Option String :=
  ((match lit ("class") cs with
    | some r => some r
    | none =>
      match lit ("struct") cs with
      | some r => some r
      | none =>
        match lit ("enum") cs with
        | some r => some r
        | none =>
          match lit ("union") cs with
          | some r => some r
          | none => lit ("typedef") cs) : Option (List Char)).bind fun r1 =>
  (munch1 isWs r1).bind fun p1 =>
  let noKw2 := (munch1 isWordChar p1.2).map fun p => String.mk p.1
  match ((match lit ("struct") p1.2 with
          | some r => some r
          | none =>
            match lit ("enum") p1.2 with
            | some r => some r
            | none => lit ("union") p1.2) : Option (List Char)) with
  | some r2 =>
    (match munch1 isWordChar (r2.dropWhile isWs) with
     | some p => some (String.mk p.1)
     | none => noKw2)
  | none => noKw2

structure CState where
  currentChunk : String
  currentChunkName : String
  blockDepth : Int
  chunks : List Chunk
deriving Repr

/-- One iteration of the `chunkCCpp` main loop (lines 626-693). -/
def ccStep (fm : FileMeta) (pre : String) (maxTokens : Nat)
    (st : CState) (line : String) : CState :=
  let st2 :=
    if st.blockDepth == 0 && ccFuncDetect line && !containsSub line (";") then
      let chunks' :=
        if trimStr st.currentChunk == "" then st.chunks
        else pushChunk fm (pre ++ st.currentChunk)
               (orDefault st.currentChunkName ("Unnamed section")) st.chunks
      { st with
        chunks := chunks'
        currentChunkName := (scanFor ccNameAt line.data).getD ("Unnamed function")
        currentChunk := line ++ "\n" }
    else if st.blockDepth == 0 && ccTypeDetect line then
      let chunks' :=
        if trimStr st.currentChunk == "" then st.chunks
        else pushChunk fm (pre ++ st.currentChunk)
               (orDefault st.currentChunkName ("Unnamed section")) st.chunks
      { st with
        chunks := chunks'
        currentChunkName := (scanFor ccTypeAt line.data).getD ("Unnamed type")
        currentChunk := line ++ "\n" }
    else
      { st with currentChunk := st.currentChunk ++ line ++ "\n" }
  let depth' := st2.blockDepth + (countChar '\x7b' line : Int) - (countChar '\x7d' line : Int)
  let st3 := { st2 with blockDepth := depth' }
  if depth' == 0 && trimStr st3.currentChunk != "" &&
     (containsSub line ("\x7d") || decide (maxTokens < estimateTokens st3.currentChunk)) then
    { st3 with
      chunks := pushChunk fm (pre ++ st3.currentChunk)
                  (orDefault st3.currentChunkName ("Unnamed section")) st3.chunks
      currentChunk := "", currentChunkName := "" }
  else st3

/-- Model of `chunkCCpp`. -/
def chunkCCpp (content : String) (fm : FileMeta) (maxTokens : Nat) : List Chunk :=
  let lines := splitChar '\n' content
  let pr := collectCPre lines
  let st0 : CState :=
    { currentChunk := "", currentChunkName := "", blockDepth := 0, chunks := [] }
  let stF := pr.2.foldl (ccStep fm pr.1 maxTokens) st0
  if trimStr stF.currentChunk == "" then stF.chunks
  else pushChunk fm (pr.1 ++ stF.currentChunk)
         (orDefault stF.currentChunkName ("Unnamed section")) stF.chunks

/-! ### Rust chunker (`chunkRust`, chunker.js lines 713-815) -/

/-- Preamble collection (lines 723-735): `use `/`extern crate` lines,
blank lines and `//` comment lines. -/
def collectRustPre : List String → String × List String
  | [] => ("", [])
  | l :: ls =>
    if startsWithStr (trimStr l) ("use ") || startsWithStr (trimStr l) ("extern crate") ||
       trimStr l == "" || startsWithStr (trimStr l) ("//") then
      let pr := collectRustPre ls
      (l ++ "\n" ++ pr.1, pr.2)
    else ("", l :: ls)

/-- Match `fn\s+(\w+)` at the head of `cs`; the enclosing
`/\s*(?:pub\s+)?fn\s+\w+/` detection regex is an unanchored search and
is therefore equivalent to searching for this core. -/
def rustFnAt (cs : List Char) : Option String :=
  (lit ("fn") cs).bind fun r1 =>
  (munch1 isWs r1).bind fun p1 =>
  (munch1 isWordChar p1.2).map fun p2 => String.mk p2.1

/-- Match `(struct|enum|trait|impl|type|mod)\s+(\w+)` at the head of
`cs` (the keywords are pairwise non-overlapping at a position, so the
alternation is deterministic). -/
def rustTypeAt (cs : List Char) : Option String :=
  ((match lit ("struct") cs with
    | some r => some r
    | none =>
      match lit ("enum") cs with
      | some r => some r
      | none =>
        match lit ("trait") cs with
        | some r => some r
        | none =>
          match lit ("impl") cs with
          | some r => some r
          | none =>
            match lit ("type") cs with
            | some r => some r
            | none => lit ("mod") cs) : Option (List Char)).bind fun r1 =>
  (munch1 isWs r1).bind fun p1 =>
  (munch1 isWordChar p1.2).map fun p2 => String.mk p2.1

structure RustState where
  currentChunk : String
  currentChunkName : String
  blockDepth : Int
  chunks : List Chunk
deriving Repr

/-- One iteration of the `chunkRust` main loop (lines 738-800). -/
def rustStep (fm : FileMeta) (pre : String) (maxTokens : Nat)
    (st : RustState) (line : String) : RustState :=
  let st2 :=
    if st.blockDepth == 0 && (scanFor rustFnAt line.data).isSome then
      let chunks' :=
        if trimStr st.currentChunk == "" then st.chunks
        else pushChunk fm (pre ++ st.currentChunk)
               (orDefault st.currentChunkName ("Unnamed section")) st.chunks
      { st with
        chunks := chunks'
        currentChunkName := (scanFor rustFnAt line.data).getD ("Unnamed function")
        currentChunk := line ++ "\n" }
    else if st.blockDepth == 0 && (scanFor rustTypeAt line.data).isSome then
      let chunks' :=
        if trimStr st.currentChunk == "" then st.chunks
        else pushChunk fm (pre ++ st.currentChunk)
               (orDefault st.currentChunkName ("Unnamed section")) st.chunks
      { st with
        chunks := chunks'
        currentChunkName := (scanFor rustTypeAt line.data).getD ("Unnamed type")
        currentChunk := line ++ "\n" }
    else
      { st with currentChunk := st.currentChunk ++ line ++ "\n" }
  let depth' := st2.blockDepth + (countChar '\x7b' line : Int) - (countChar '\x7d' line : Int)
  let st3 := { st2 with blockDepth := depth' }
  if depth' == 0 && trimStr st3.currentChunk != "" &&
     (trimStr line == "\x7d" || decide (maxTokens < estimateTokens st3.currentChunk)) then
    { st3 with
      chunks := pushChunk fm (pre ++ st3.currentChunk)
                  (orDefault st3.currentChunkName ("Unnamed section")) st3.chunks
      currentChunk := "", currentChunkName := "" }
  else st3

/-- Model of `chunkRust`. -/
def chunkRust (content : String) (fm : FileMeta) (maxTokens : Nat) : List Chunk :=
  let lines := splitChar '\n' content
  let pr := collectRustPre lines
  let st0 : RustState :=
    { currentChunk := "", currentChunkName := "", blockDepth := 0, chunks := [] }
  let stF := pr.2.foldl (rustStep fm pr.1 maxTokens) st0
  if trimStr stF.currentChunk == "" then stF.chunks
  else pushChunk fm (pr.1 ++ stF.currentChunk)
         (orDefault stF.currentChunkName ("Unnamed section")) stF.chunks

/-! ### Dispatch (`chunkCodeFile` and `getLanguageFromExtension`,
chunker.js lines 17-74) -/

/-- Model of `getLanguageFromExtension`. -/
def getLanguageFromExtension (ext : String) : String :=
  if ext == "js" || ext == "jsx" then "javascript"
  else if ext == "ts" || ext == "tsx" then "typescript"
  else if ext == "py" then "python"
  else if ext == "java" then "java"
  else if ext == "go" then "go"
  else if ext == "c" || ext == "h" then "c"
  else if ext == "cpp" || ext == "hpp" then "cpp"
  else if ext == "rs" then "rust"
  else if ext == "html" then "html"
  else if ext == "css" then "css"
  else "text"

/-- Model of `chunkCodeFile(content, filePath, maxTokens = 400)`: the
extension is `filePath.split('.').pop().toLowerCase()` and dispatch is
by detected language, falling back to `chunkBySize`. -/
def chunkCodeFile (content : String) (filePath : String) (maxTokens : Nat) : List Chunk :=
  let ext := toLowerStr ((splitChar '.' filePath).getLastD filePath)
  let lang := getLanguageFromExtension ext
  let fm : FileMeta := { path := filePath, language := lang, extension := ext }
  if lang == "javascript" || lang == "typescript" then chunkJSTS content fm maxTokens
  else if lang == "python" then chunkPython content fm maxTokens
  else if lang == "java" then chunkJava content fm maxTokens
  else if lang == "go" then chunkGo content fm maxTokens
  else if lang == "c" || lang == "cpp" then chunkCCpp content fm maxTokens
  else if lang == "rust" then chunkRust content fm maxTokens
  else chunkBySize content fm maxTokens

/-! ### Cosine similarity (chromadb.js lines 263-292)

This is the `cosineSimilarity` used by the retrieval path (the
`global.vectorStore` implementation).  JavaScript numbers are modelled
as real numbers; the `!vecA || !vecB` null guards cannot fire for
well-typed inputs and the `try/catch` wrapper has no exceptional paths
in this model. -/

/-- Loop accumulating `dotProduct` (lines 274-278): the two vectors
have equal length when this is reached, so the sum is over the
elementwise products. -/
def dotL (a b : List ℝ) : ℝ := (List.zipWith (fun x y => x * y) a b).sum

/-- Loop accumulating `normA`/`normB` (before the square roots). -/
def sumSq (a : List ℝ) : ℝ := (a.map fun x => x * x).sum

/-- Model of `cosineSimilarity(vecA, vecB)` from chromadb.js 263-292:
mismatched lengths return 0 (line 265-268); after the square roots, a
zero norm returns 0 (lines 283-286); otherwise the quotient. -/
noncomputable def cosineSimilarity (vecA vecB : List ℝ) : ℝ :=
  if vecA.length ≠ vecB.length then 0
  else
    let normA := Real.sqrt (sumSq vecA)
    let normB := Real.sqrt (sumSq vecB)
    if normA = 0 ∨ normB = 0 then 0
    else dotL vecA vecB / (normA * normB)

/-! ### In-memory vector store (chromadb.js lines 258-488) -/

/-- A record of a collection's `data` array: `{id, embedding, document,
metadata}`. -/
structure VRecord where
  id : String
  embedding : List ℝ
  document : String
  metadata : ChunkMeta

/-- An entry of the per-collection query result array (lines 344-355). -/
structure RawResult where
  id : String
  document : String
  metadata : ChunkMeta
  distance : ℝ

/-- Comparator of the sort at line 358: ascending by distance. -/
def distLe (a b : RawResult) : Prop := a.distance ≤ b.distance

noncomputable instance : DecidableRel distLe := fun a b =>
  (inferInstance : Decidable (a.distance ≤ b.distance))

instance : IsTotal RawResult distLe := ⟨fun a b => le_total a.distance b.distance⟩

instance : IsTrans RawResult distLe := ⟨fun _ _ _ h1 h2 => le_trans h1 h2⟩

/-- Model of `collection.query` (lines 331-371): on an empty `data`
array empty result lists are returned; otherwise a distance
`1 - cosineSimilarity` is computed against every record, the array is
sorted ascending by distance (JavaScript's stable sort, modelled by
insertion sort) and the first `nResults` entries are kept. -/
noncomputable def collQuery (data : List VRecord) (queryEmbedding : List ℝ)
    (nResults : Nat) : List RawResult :=
  if data.length = 0 then []
  else
    let results := data.map fun item =>
      { id := item.id, document := item.document, metadata := item.metadata,
        distance := 1 - cosineSimilarity queryEmbedding item.embedding : RawResult }
    (List.insertionSort distLe results).take nResults

/-- The result shape of `querySimilarChunks` (lines 446-457). -/
structure QueryResult where
  content : String
  metadata : ChunkMeta
  distance : ℝ

/-- Model of `querySimilarChunks` (lines 428-465) applied to a
collection's data: an empty collection short-circuits to `[]`
(line 433); otherwise each raw result is formatted, with
`distance: results.distances[0][i] || 1.0` — the only falsy real
distance is `0`, which is therefore replaced by `1.0`. -/
noncomputable def querySimilarChunks (data : List VRecord) (queryEmbedding : List ℝ)
    (topK : Nat) : List QueryResult :=
  if data.length = 0 then []
  else
    (collQuery data queryEmbedding topK).map fun r =>
      { content := r.document, metadata := r.metadata,
        distance := if r.distance = (0 : ℝ) then (1 : ℝ) else r.distance }

/-- The property asserted by the retrieval-ordering claim, stated as
in the specification: `results[i].distance <= results[i+1].distance`
for every valid index `i`. -/
def defaultQueryResult : QueryResult :=
  { content := ""
    metadata := { path := "", language := "", extension := "", chunkType := "", name := "" }
    distance := 0 }

def distancesNondecreasing (rs : List QueryResult) : Prop :=
  ∀ i : Nat, i + 1 < rs.length →
    (rs.getD i defaultQueryResult).distance ≤ (rs.getD (i + 1) defaultQueryResult).distance

/-- The collection store kept in `global.vectorStore.collections`,
modelled as an association list from sanitized collection name to the
collection's `data` array. -/
def Store := List (String × List VRecord)

/-- Sanitized collection name (lines 302, 475):
`repo_` + `repoId.replace(/[^a-zA-Z0-9_]/g, '_')`. -/
def collectionName (repoId : String) : String :=
  "repo_" ++ String.mk (repoId.data.map fun c => if isWordChar c then c else '_')

/-- Association-list lookup of a collection's data array. -/
def storeLookup (s : Store) (name : String) : Option (List VRecord) :=
  match s with
  | [] => none
  | (n, d) :: rest => if n == name then some d else storeLookup rest name

/-- Replace (or insert) a collection's data array. -/
def storeSet (s : Store) (name : String) (d : List VRecord) : Store :=
  match s with
  | [] => [(name, d)]
  | (n, d0) :: rest => if n == name then (n, d) :: rest else (n, d0) :: storeSet rest name d

/-- Remove a collection (`delete global.vectorStore.collections[name]`,
line 479); absent names are left alone (line 482). -/
def storeDelete (s : Store) (name : String) : Store :=
  match s with
  | [] => []
  | (n, d) :: rest => if n == name then storeDelete rest name else (n, d) :: storeDelete rest name

/-- Model of `getCollection(repoId)` (lines 299-379): return the
existing collection's data, creating an empty collection when absent;
returns the data array and the updated store. -/
def getCollection (repoId : String) (s : Store) : List VRecord × Store :=
  let name := collectionName repoId
  match storeLookup s name with
  | some d => (d, s)
  | none => ([], storeSet s name [])

/-- Model of `deleteRepositoryData(repoId)` (lines 472-488). -/
def deleteRepositoryData (repoId : String) (s : Store) : Store :=
  storeDelete s (collectionName repoId)

/-- An embedded chunk (`{...chunk, embedding}`, embeddings.js 51-54). -/
structure EmbChunk where
  content : String
  metadata : ChunkMeta
  embedding : List ℝ

/-- The records appended for one batch of `addChunksToVectorStore`
(lines 395-411): ids are `chunk_<batchStart + index>`. -/
def batchRecords (startIdx : Nat) (batch : List EmbChunk) : List VRecord :=
  (batch.enum.map fun p =>
    { id := "chunk_" ++ toString (startIdx + p.1), embedding := p.2.embedding,
      document := p.2.content, metadata := p.2.metadata : VRecord })

/-- The batch loop of `addChunksToVectorStore` (BATCH_SIZE = 50): each
iteration appends one batch's records to the collection `data` and
moves `i` past it.  The structurally decreasing `fuel` is only a
termination bound; one list element is consumed per iteration at
least, so `fuel = chunks.length` runs the loop to completion. -/
def addChunksLoop (name : String) : Nat → List EmbChunk → Nat → Store → Store
  | 0, _, _, s => s
  | _ + 1, [], _, s => s
  | fuel + 1, c :: rest, i, s =>
    let batch := (c :: rest).take 50
    let d := (storeLookup s name).getD []
    let s' := storeSet s name (d ++ batchRecords i batch)
    addChunksLoop name fuel ((c :: rest).drop 50) (i + 50) s'

/-- Model of `addChunksToVectorStore(repoId, chunks)` (lines 387-419):
get (or create) the collection, then append all chunks in batches of
50 with ids `chunk_<offset>`. -/
def addChunksToVectorStore (repoId : String) (chunks : List EmbChunk) (s : Store) : Store :=
  let gc := getCollection repoId s
  addChunksLoop (collectionName repoId) chunks.length chunks 0 gc.2

/-- Number of records currently stored for a repository. -/
def recordCount (s : Store) (repoId : String) : Nat :=
  ((storeLookup s (collectionName repoId)).getD []).length

/-! ### Embedder (`embeddings.js`)

The Hugging Face call is modelled by an oracle
`svc : String → Option (List ℝ)`: `none` is a per-call failure (the
thrown `EmbeddingError`), `some v` the returned vector. -/

/-- Text submitted for one chunk (embeddings.js line 48):
`File: ${path}\nSection: ${name || 'Unnamed section'}\n\n${content}`. -/
def combinedContent (c : Chunk) : String :=
  "File: " ++ c.metadata.path ++ "\nSection: " ++
    orDefault c.metadata.name ("Unnamed section") ++ "\n\n" ++ c.content

/-- Model of `generateEmbedding` (lines 14-31): the text is truncated
to 8192 characters (`text.slice(0, 8192)`) before the call; a service
failure propagates as `none`. -/
def generateEmbedding (svc : String → Option (List ℝ)) (text : String) : Option (List ℝ) :=
  svc (String.mk (text.data.take 8192))

/-- Model of the `batchProcessEmbeddings` loop (lines 38-72): chunks
are processed sequentially; a successful embedding appends
`{...chunk, embedding}`; a failure is caught, logged and skipped, and
the loop continues with the next chunk. -/
def batchProcessEmbeddings (svc : String → Option (List ℝ)) : List Chunk → List EmbChunk
  | [] => []
  | c :: rest =>
    match generateEmbedding svc (combinedContent c) with
    | some e =>
      { content := c.content, metadata := c.metadata, embedding := e } ::
        batchProcessEmbeddings svc rest
    | none => batchProcessEmbeddings svc rest

/-- The chunk part of an embedded chunk. -/
def EmbChunk.toChunk (ec : EmbChunk) : Chunk :=
  { content := ec.content, metadata := ec.metadata }

/-! ### Repository listing (`github.js`)

The GitHub contents API is modelled by a finite tree: each node is
either a call that errors, a single-file response, or a directory
listing whose entries are files or subdirectories.  `getAllFiles`
catches any error of the call for a node and returns `[]` for it
(github.js lines 122-125). -/

/-- The supported source extensions (github.js lines 4-12). -/
def SUPPORTED_EXTENSIONS : List String :=
  [".js", ".jsx", ".ts", ".tsx", ".py", ".java", ".go",
   ".cpp", ".hpp", ".h", ".c", ".rs", ".html", ".css"]

/-- Model of `isSupportedFile(filename)`:
`'.' + filename.split('.').pop().toLowerCase()` is looked up in the
allow-list. -/
def isSupportedFile (filename : String) : Bool :=
  let ext := "." ++ toLowerStr ((splitChar '.' filename).getLastD filename)
  SUPPORTED_EXTENSIONS.contains ext

/-- Model of `shouldSkipDirectory(dirName)`. -/
def shouldSkipDirectory (dirName : String) : Bool :=
  ["node_modules", ".git", "dist", "build", ".next", "venv",
   "__pycache__", "vendor"].contains (toLowerStr dirName)

/-- A file reference produced by the listing:
`{path, type: 'file', downloadUrl}`. -/
structure FileRef where
  path : String
  downloadUrl : String
deriving Repr, DecidableEq

mutual
/-- One GitHub contents-API response for a path. -/
inductive GhNode where
  /-- The API call for this path errors (network, permissions, ...). -/
  | failure : String → GhNode
  /-- A non-array response: a single file `{name, path, download_url}`. -/
  | single : String → String → String → GhNode
  /-- A directory listing. -/
  | listing : List GhEntry → GhNode

/-- One entry of a directory listing. -/
inductive GhEntry where
  /-- A file entry `{name, path, download_url}`. -/
  | fileEntry : String → String → String → GhEntry
  /-- A subdirectory with its own contents-API response. -/
  | dirEntry : String → GhNode → GhEntry
end

mutual
/-- Model of `getAllFiles` (github.js lines 83-126): an erroring call
is caught and yields `[]`; a single supported file yields itself;
entries of a listing are processed in order, recursing into
non-skipped directories. -/
def getAllFiles : GhNode → List FileRef
  | .failure _ => []
  | .single name path url => if isSupportedFile name then [{ path := path, downloadUrl := url }] else []
  | .listing es => getAllFilesEntries es

/-- The directory loop of `getAllFiles` (lines 102-119). -/
def getAllFilesEntries : List GhEntry → List FileRef
  | [] => []
  | .fileEntry name path url :: rest =>
    (if isSupportedFile name then [{ path := path, downloadUrl := url }] else []) ++
      getAllFilesEntries rest
  | .dirEntry name sub :: rest =>
    (if shouldSkipDirectory name then [] else getAllFiles sub) ++ getAllFilesEntries rest
end

/-! ### Ingestion handler (`process-repo.js`)

The handler is modelled from after URL parsing: `repoInfo` stands for
the result of `getRepositoryInfo` (an error there is caught by the
outer `try` and reported as the 500 failure response), `tree` for the
contents API, `fetch` for `getFileContent` (which returns `null` on
any error, github.js lines 163-176), `svc` for the embedding service
and `s` for the vector store. -/

/-- The terminal outcomes of one `process-repo` request. -/
inductive Outcome where
  /-- 400 `No supported code files found in the repository`. -/
  | noSupportedFiles : Outcome
  /-- 400 `Failed to generate any code chunks from the repository`. -/
  | noChunks : Outcome
  /-- 200 with `processedFiles` and `processedChunks` counts. -/
  | indexed : Nat → Nat → Outcome
  /-- 500 `Failed to process repository` with the error message. -/
  | failed : String → Outcome
deriving Repr, DecidableEq

/-- Per-file loop inside one batch (process-repo.js lines 64-78): the
content is fetched (errors there surface as `none` and skip the file)
and chunked with the default `maxTokens = 400`. -/
def batchChunks (fetch : String → Option String) (batch : List FileRef) : List Chunk :=
  batch.foldl (fun acc f =>
    match fetch f.downloadUrl with
    | some content => acc ++ chunkCodeFile content f.path 400
    | none => acc) []

/-- The batch loop of the handler (lines 57-85, MAX_FILES_PER_BATCH =
20): each batch's chunks are embedded together, failed embeddings
dropping out, and appended to `allChunks`.  As in `addChunksLoop`,
`fuel` is only a structural termination bound. -/
def processFileBatchesF (fetch : String → Option String) (svc : String → Option (List ℝ)) :
    Nat → List FileRef → List EmbChunk
  | 0, _ => []
  | _ + 1, [] => []
  | fuel + 1, f :: rest =>
    let fileBatch := (f :: rest).take 20
    let processedFiles := batchChunks fetch fileBatch
    (if processedFiles.length > 0 then batchProcessEmbeddings svc processedFiles else []) ++
      processFileBatchesF fetch svc fuel ((f :: rest).drop 20)

/-- The handler batch loop run to completion. -/
def processFileBatches (fetch : String → Option String) (svc : String → Option (List ℝ))
    (files : List FileRef) : List EmbChunk :=
  processFileBatchesF fetch svc files.length files

/-- Model of the handler body (process-repo.js lines 18-114): fetch
repository info (failure → 500), delete any existing collection, list
files (MAX_FILES = 40), process them in batches, and index the
chunks.  Returns the outcome and the final store. -/
def processRepoHandler (repoId : String) (repoInfo : Except String Unit) (tree : GhNode)
    (fetch : String → Option String) (svc : String → Option (List ℝ)) (s : Store) :
    Outcome × Store :=
  match repoInfo with
  | .error e => (.failed e, s)
  | .ok _ =>
    let s1 := deleteRepositoryData repoId s
    let files := getAllFiles tree
    if files.length = 0 then (.noSupportedFiles, s1)
    else
      let limitedFiles := files.take 40
      let allChunks := processFileBatches fetch svc limitedFiles
      if allChunks.length = 0 then (.noChunks, s1)
      else (.indexed limitedFiles.length allChunks.length,
            addChunksToVectorStore repoId allChunks s1)

/-! ### Concrete instances used by the witness and counterexample
theorems below -/

/-- A fixed metadata value for concrete store records. -/
def exMeta : ChunkMeta :=
  { path := "a.js", language := "javascript", extension := "js",
    chunkType := "code", name := "A" }

/-- A record whose embedding points in the same direction as the
example query `[1, 0]`. -/
noncomputable def recA : VRecord :=
  { id := "chunk_0", embedding := [1, 0], document := "docA", metadata := exMeta }

/-- A record at cosine similarity `3/5` from the example query. -/
noncomputable def recB : VRecord :=
  { id := "chunk_1", embedding := [3, 4], document := "docB", metadata := exMeta }

/-- The ten-line JavaScript file of the chunking scenario: a 3-line
block of imports, then a blank line and a single function `foo`. -/
def tenLineJSFile : String :=
  "import a;\nimport b;\nimport c;\n\nfunction foo() \x7b\n  const x = 1;\n  const y = 2;\n  return x + y;\n\x7d\n"

/-- A four-line text file used against the fallback chunker. -/
def smallTextFile : String := "a b\nc d\ne f\ng"

/-- A one-file repository listing. -/
def exTree : GhNode := .listing [.fileEntry ("a.js") ("a.js") ("urlA")]

/-- A fetch oracle returning a one-line file body. -/
def exFetch : String → Option String := fun _ => some "hello"

/-- An embedding oracle that always succeeds with a 1-dimensional
vector. -/
noncomputable def exSvc : String → Option (List ℝ) := fun _ => some [1]

/-- A store already holding one record for repository `o/r`, standing
for the result of a first ingestion. -/
noncomputable def exStore0 : Store :=
  [("repo_o_r", [{ id := "chunk_0", embedding := [1], document := "old", metadata := exMeta }])]

/-- A default chunk (used only as the out-of-range value of `getD`). -/
def defaultChunk : Chunk :=
  { content := ""
    metadata := { path := "", language := "", extension := "", chunkType := "", name := "" } }

/-- Shape of every chunk flushed by the in-loop size check of
`chunkBySize`: it exceeds `maxTokens`, and it does so only by its last
line — the accumulation before that line was within the bound. -/
def sizeFlushShape (maxTokens : Nat) (c : Chunk) : Prop :=
  maxTokens < estimateTokens c.content ∧
  ∃ pre line, c.content = pre ++ (line ++ "\n") ∧ estimateTokens pre ≤ maxTokens

/-! ## Theorems -/

/-! ### Cosine similarity lemmas -/

theorem sumSq_nonneg (a : List ℝ) : 0 ≤ sumSq a := by
  refine List.sum_nonneg ?_
  intro x hx
  obtain ⟨y, _, rfl⟩ := List.mem_map.mp hx
  exact mul_self_nonneg y

theorem cs_step (x y A B D : ℝ) (hA : 0 ≤ A) (hB : 0 ≤ B) (hD : D ^ 2 ≤ A * B) :
    (x * y + D) ^ 2 ≤ (x * x + A) * (y * y + B) := by
  nlinarith [sq_nonneg (x * x * B - y * y * A),
             mul_nonneg (sq_nonneg (x * y)) (sub_nonneg.mpr hD),
             mul_nonneg (mul_self_nonneg x) hB,
             mul_nonneg (mul_self_nonneg y) hA,
             sq_nonneg (x * y - D), sq_nonneg (x * y + D)]

/-- Cauchy-Schwarz for the loop sums of `cosineSimilarity`. -/
theorem dotL_sq_le (a b : List ℝ) : (dotL a b) ^ 2 ≤ sumSq a * sumSq b := by
  induction a generalizing b with
  | nil => simp [dotL, sumSq]
  | cons x a ih =>
    cases b with
    | nil => simp [dotL, sumSq]
    | cons y b =>
      have key := cs_step x y (sumSq a) (sumSq b) (dotL a b)
        (sumSq_nonneg a) (sumSq_nonneg b) (ih b)
      simp only [dotL, sumSq, List.zipWith_cons_cons, List.map_cons, List.sum_cons]
      exact key

theorem abs_dotL_le (a b : List ℝ) :
    |dotL a b| ≤ Real.sqrt (sumSq a) * Real.sqrt (sumSq b) := by
  have h1 : |dotL a b| = Real.sqrt ((dotL a b) ^ 2) := (Real.sqrt_sq_eq_abs _).symm
  rw [h1, ← Real.sqrt_mul (sumSq_nonneg a)]
  exact Real.sqrt_le_sqrt (dotL_sq_le a b)

theorem cosineSimilarity_bounds (a b : List ℝ) :
    -1 ≤ cosineSimilarity a b ∧ cosineSimilarity a b ≤ 1 := by
  unfold cosineSimilarity
  split
  · norm_num
  · dsimp only
    split
    · norm_num
    · rename_i hlen hz
      push_neg at hz
      have hA : 0 ≤ Real.sqrt (sumSq a) := Real.sqrt_nonneg _
      have hB : 0 ≤ Real.sqrt (sumSq b) := Real.sqrt_nonneg _
      have hApos : 0 < Real.sqrt (sumSq a) := lt_of_le_of_ne hA (Ne.symm hz.1)
      have hBpos : 0 < Real.sqrt (sumSq b) := lt_of_le_of_ne hB (Ne.symm hz.2)
      have hprod : 0 < Real.sqrt (sumSq a) * Real.sqrt (sumSq b) := mul_pos hApos hBpos
      have habs := abs_dotL_le a b
      constructor
      · rw [le_div_iff₀ hprod]
        have := (abs_le.mp habs).1
        linarith
      · rw [div_le_one hprod]
        exact (abs_le.mp habs).2

theorem dotL_comm (a b : List ℝ) : dotL a b = dotL b a := by
  unfold dotL
  rw [List.zipWith_comm_of_comm]
  intro x y
  exact mul_comm x y

theorem cosineSimilarity_comm (a b : List ℝ) :
    cosineSimilarity a b = cosineSimilarity b a := by
  unfold cosineSimilarity
  by_cases h : a.length = b.length
  · simp only [h, ne_eq, not_true_eq_false, if_false]
    rw [dotL_comm]
    exact if_congr or_comm rfl (by rw [mul_comm])
  · rw [if_pos h, if_pos (Ne.symm h)]

theorem sumSq_eq_zero_of_all_zero {a : List ℝ} (h : ∀ x ∈ a, x = 0) : sumSq a = 0 := by
  unfold sumSq
  refine List.sum_eq_zero ?_
  intro x hx
  obtain ⟨y, hy, rfl⟩ := List.mem_map.mp hx
  rw [h y hy, mul_zero]

theorem cosineSimilarity_zero_left {a : List ℝ} (b : List ℝ) (h : ∀ x ∈ a, x = 0) :
    cosineSimilarity a b = 0 := by
  unfold cosineSimilarity
  split
  · rfl
  · dsimp only
    rw [if_pos]
    left
    rw [sumSq_eq_zero_of_all_zero h, Real.sqrt_zero]

theorem cosineSimilarity_len_ne {a b : List ℝ} (h : a.length ≠ b.length) :
    cosineSimilarity a b = 0 := by
  unfold cosineSimilarity
  rw [if_pos h]

theorem cosineSimilarity_nil_nil : cosineSimilarity [] [] = 0 := by
  unfold cosineSimilarity
  norm_num [sumSq, dotL]

/-- Claim C5: `cosineSimilarity` is symmetric, and returns exactly 0
whenever either argument is an all-zero vector. -/
theorem C5_cosine_symmetry_and_zero :
    (∀ a b : List ℝ, cosineSimilarity a b = cosineSimilarity b a) ∧
    (∀ a b : List ℝ, (∀ x ∈ a, x = 0) →
      cosineSimilarity a b = 0 ∧ cosineSimilarity b a = 0) := by
  refine ⟨cosineSimilarity_comm, fun a b h => ⟨cosineSimilarity_zero_left b h, ?_⟩⟩
  rw [cosineSimilarity_comm b a]
  exact cosineSimilarity_zero_left b h

/-- Witness for C5 at the all-zero vector `[0, 0]` against `[1, 2]`. -/
theorem C5_cosine_symmetry_and_zero_witness :
    (∀ x ∈ ([0, 0] : List ℝ), x = 0) ∧
    (cosineSimilarity [0, 0] [1, 2] = 0 ∧ cosineSimilarity [1, 2] [0, 0] = 0) :=
  ⟨by simp, C5_cosine_symmetry_and_zero.2 [0, 0] [1, 2] (by simp)⟩

/-- Claim C8: mismatched-length vector pairs (and the empty pair) give
cosine similarity exactly 0; the guard collapses them to the 0 result
rather than raising. -/
theorem C8_mismatch_zero :
    (∀ a b : List ℝ, a.length ≠ b.length → cosineSimilarity a b = 0) ∧
    cosineSimilarity ([] : List ℝ) ([] : List ℝ) = 0 :=
  ⟨fun _ _ h => cosineSimilarity_len_ne h, cosineSimilarity_nil_nil⟩

/-- Witness for C8 at the length-1 and length-2 pair. -/
theorem C8_mismatch_zero_witness :
    (([1] : List ℝ).length ≠ ([1, 2] : List ℝ).length) ∧
    cosineSimilarity [1] [1, 2] = 0 :=
  ⟨by simp, C8_mismatch_zero.1 [1] [1, 2] (by simp)⟩

/-! ### Embedding batch loop -/

/-- Claim C6: `batchProcessEmbeddings` never aborts on a per-chunk
failure; it returns exactly the successfully embedded chunks, as an
order-preserving subsequence of its input. -/
theorem C6_batch_partial_failure :
    ∀ (svc : String → Option (List ℝ)) (chunks : List Chunk),
      (batchProcessEmbeddings svc chunks).map EmbChunk.toChunk =
        chunks.filter (fun c => (generateEmbedding svc (combinedContent c)).isSome) ∧
      List.Sublist ((batchProcessEmbeddings svc chunks).map EmbChunk.toChunk) chunks := by
  intro svc chunks
  have h : (batchProcessEmbeddings svc chunks).map EmbChunk.toChunk =
      chunks.filter (fun c => (generateEmbedding svc (combinedContent c)).isSome) := by
    induction chunks with
    | nil => rfl
    | cons c rest ih =>
      cases he : generateEmbedding svc (combinedContent c) with
      | none => simp [batchProcessEmbeddings, he, List.filter, ih]
      | some e => simp [batchProcessEmbeddings, he, List.filter, ih, EmbChunk.toChunk]
  exact ⟨h, h ▸ List.filter_sublist _⟩

/-! ### Vector store lemmas and claim C3 -/

theorem storeLookup_storeSet_self (s : Store) (n : String) (d : List VRecord) :
    storeLookup (storeSet s n d) n = some d := by
  induction s with
  | nil => simp [storeSet, storeLookup]
  | cons p rest ih =>
    by_cases h : p.1 == n
    · simp [storeSet, storeLookup, h]
    · simp [storeSet, storeLookup, h, ih]

theorem storeLookup_storeDelete_self (s : Store) (n : String) :
    storeLookup (storeDelete s n) n = none := by
  induction s with
  | nil => rfl
  | cons p rest ih =>
    by_cases h : p.1 == n
    · simp [storeDelete, h, ih]
    · simp [storeDelete, storeLookup, h, ih]

theorem batchRecords_length (i : Nat) (batch : List EmbChunk) :
    (batchRecords i batch).length = batch.length := by
  simp [batchRecords]

theorem addChunksLoop_count (name : String) :
    ∀ (fuel : Nat) (chunks : List EmbChunk) (i : Nat) (s : Store), chunks.length ≤ fuel →
      ((storeLookup (addChunksLoop name fuel chunks i s) name).getD []).length =
        ((storeLookup s name).getD []).length + chunks.length := by
  intro fuel
  induction fuel with
  | zero =>
    intro chunks i s h
    rw [List.eq_nil_of_length_eq_zero (Nat.le_zero.mp h)]
    rfl
  | succ fuel ih =>
    intro chunks i s h
    cases chunks with
    | nil => rfl
    | cons c rest =>
      rw [addChunksLoop]
      rw [ih _ _ _ (by simp at h ⊢; omega)]
      rw [storeLookup_storeSet_self]
      simp [batchRecords_length]
      omega

theorem reingest_count (s : Store) (repoId : String) (chunks : List EmbChunk) :
    recordCount (addChunksToVectorStore repoId chunks (deleteRepositoryData repoId s)) repoId
      = chunks.length := by
  unfold recordCount addChunksToVectorStore getCollection deleteRepositoryData
  simp only [storeLookup_storeDelete_self]
  rw [addChunksLoop_count _ _ _ _ _ (le_refl _), storeLookup_storeSet_self]
  simp

theorem handler_indexed_count :
    ∀ (repoId : String) (tree : GhNode) (fetch : String → Option String)
      (svc : String → Option (List ℝ)) (s : Store) (pf pc : Nat),
      (processRepoHandler repoId (Except.ok ()) tree fetch svc s).1 = Outcome.indexed pf pc →
      recordCount (processRepoHandler repoId (Except.ok ()) tree fetch svc s).2 repoId = pc := by
  intro repoId tree fetch svc s pf pc h
  unfold processRepoHandler at *
  dsimp only at *
  split at h
  · simp at h
  · split at h
    · simp at h
    · rename_i h1 h2
      simp only [Outcome.indexed.injEq] at h
      obtain ⟨hpf, hpc⟩ := h
      simp only [h1, h2, if_false]
      rw [← hpc]
      exact reingest_count s repoId _

/-- Claim C3: re-ingesting a repository deletes the pre-existing
collection and recreates it, so whatever the store held before, the
record count after ingesting `chunks` is exactly `chunks.length`; at
the handler level, a run that ends `indexed pf pc` leaves exactly `pc`
records, with no record of any earlier run surviving. -/
theorem C3_reingestion_full_replace :
    (∀ (s : Store) (repoId : String) (chunks : List EmbChunk),
       recordCount (addChunksToVectorStore repoId chunks (deleteRepositoryData repoId s)) repoId
         = chunks.length) ∧
    (∀ (repoId : String) (tree : GhNode) (fetch : String → Option String)
       (svc : String → Option (List ℝ)) (s : Store) (pf pc : Nat),
       (processRepoHandler repoId (Except.ok ()) tree fetch svc s).1 = Outcome.indexed pf pc →
       recordCount (processRepoHandler repoId (Except.ok ()) tree fetch svc s).2 repoId = pc) :=
  ⟨fun s r c => reingest_count s r c, handler_indexed_count⟩

/-- Witness for C3: a store already holding a record for `o/r` is
re-ingested; the run indexes 1 chunk and the final count is 1. -/
theorem C3_reingestion_full_replace_witness :
    ((processRepoHandler "o/r" (Except.ok ()) exTree exFetch exSvc exStore0).1 =
      Outcome.indexed 1 1) ∧
    recordCount (processRepoHandler "o/r" (Except.ok ()) exTree exFetch exSvc exStore0).2 "o/r"
      = 1 :=
  ⟨by decide, C3_reingestion_full_replace.2 "o/r" exTree exFetch exSvc exStore0 1 1 (by decide)⟩

/-! ### Ingestion outcome lemmas and claims C9, C10 -/

theorem handler_listing_empty :
    ∀ (repoId : String) (tree : GhNode) (fetch : String → Option String)
      (svc : String → Option (List ℝ)) (s : Store),
      getAllFiles tree = [] →
      (processRepoHandler repoId (Except.ok ()) tree fetch svc s).1 = Outcome.noSupportedFiles := by
  intro repoId tree fetch svc s h
  unfold processRepoHandler
  rw [h]
  rfl

theorem handler_ok_not_failed :
    ∀ (repoId : String) (tree : GhNode) (fetch : String → Option String)
      (svc : String → Option (List ℝ)) (s : Store) (e : String),
      (processRepoHandler repoId (Except.ok ()) tree fetch svc s).1 ≠ Outcome.failed e := by
  intro repoId tree fetch svc s e
  unfold processRepoHandler
  dsimp only
  split
  · simp
  · split
    · simp
    · simp

/-- Claim C9 counterexample: for a repository whose listing call
errors, the handler reports the "no supported files" outcome (HTTP
400), not the `Failed` (HTTP 500) outcome the claim requires —
`getAllFiles` swallows the error into an empty list. -/
theorem C9_counterexample :
    (processRepoHandler "o/r" (Except.ok ()) (GhNode.failure ("boom")) exFetch exSvc []).1 =
      Outcome.noSupportedFiles := by
  decide

/-- Claim C9 (amended): an erroring listing call is absorbed by
`getAllFiles` into an empty file list, so it is reported exactly like
a successful listing with zero supported files — as the "no supported
files" outcome; with the listing modelled, the `Failed` outcome is
never produced after repository info succeeded, and is produced
exactly when fetching repository info fails. -/
theorem C9_listing_error_amended :
    (∀ msg : String, getAllFiles (GhNode.failure msg) = []) ∧
    (∀ (repoId : String) (tree : GhNode) (fetch : String → Option String)
       (svc : String → Option (List ℝ)) (s : Store),
       getAllFiles tree = [] →
       (processRepoHandler repoId (Except.ok ()) tree fetch svc s).1 =
         Outcome.noSupportedFiles) ∧
    (∀ (repoId : String) (tree : GhNode) (fetch : String → Option String)
       (svc : String → Option (List ℝ)) (s : Store) (e : String),
       (processRepoHandler repoId (Except.ok ()) tree fetch svc s).1 ≠ Outcome.failed e) ∧
    (∀ (repoId : String) (tree : GhNode) (fetch : String → Option String)
       (svc : String → Option (List ℝ)) (s : Store) (e : String),
       (processRepoHandler repoId (Except.error e) tree fetch svc s).1 = Outcome.failed e) :=
  ⟨fun _ => rfl, handler_listing_empty, handler_ok_not_failed, fun _ _ _ _ _ _ => rfl⟩

/-- Witness for C9 (amended) at an erroring listing. -/
theorem C9_listing_error_amended_witness :
    (getAllFiles (GhNode.failure ("boom")) = []) ∧
    (processRepoHandler "x/y" (Except.ok ()) (GhNode.failure ("boom")) exFetch exSvc []).1 =
      Outcome.noSupportedFiles :=
  ⟨rfl, C9_listing_error_amended.2.1 "x/y" (GhNode.failure ("boom")) exFetch exSvc [] rfl⟩

theorem handler_indexed_pf :
    ∀ (repoId : String) (tree : GhNode) (fetch : String → Option String)
      (svc : String → Option (List ℝ)) (s : Store) (pf pc : Nat),
      (processRepoHandler repoId (Except.ok ()) tree fetch svc s).1 = Outcome.indexed pf pc →
      pf = min (getAllFiles tree).length 40 := by
  intro repoId tree fetch svc s pf pc h
  unfold processRepoHandler at h
  dsimp only at h
  split at h
  · simp at h
  · split at h
    · simp at h
    · simp only [Outcome.indexed.injEq] at h
      rw [← h.1, List.length_take, Nat.min_comm]

theorem batchChunks_congr (fetch1 fetch2 : String → Option String) (batch : List FileRef)
    (h : ∀ f ∈ batch, fetch1 f.downloadUrl = fetch2 f.downloadUrl) :
    batchChunks fetch1 batch = batchChunks fetch2 batch := by
  unfold batchChunks
  apply List.foldl_ext
  intro acc f hf
  rw [h f hf]

theorem processFileBatchesF_congr (fetch1 fetch2 : String → Option String)
    (svc : String → Option (List ℝ)) :
    ∀ (fuel : Nat) (files : List FileRef),
      (∀ f ∈ files, fetch1 f.downloadUrl = fetch2 f.downloadUrl) →
      processFileBatchesF fetch1 svc fuel files = processFileBatchesF fetch2 svc fuel files := by
  intro fuel
  induction fuel with
  | zero => intro files h; rfl
  | succ fuel ih =>
    intro files h
    cases files with
    | nil => rfl
    | cons f rest =>
      rw [processFileBatchesF, processFileBatchesF]
      have hb : batchChunks fetch1 ((f :: rest).take 20) =
          batchChunks fetch2 ((f :: rest).take 20) :=
        batchChunks_congr _ _ _ (fun g hg => h g (List.mem_of_mem_take hg))
      rw [hb, ih _ (fun g hg => h g (List.mem_of_mem_drop hg))]

theorem handler_fetch_agree :
    ∀ (repoId : String) (info : Except String Unit) (tree : GhNode)
      (fetch1 fetch2 : String → Option String) (svc : String → Option (List ℝ)) (s : Store),
      (∀ f ∈ (getAllFiles tree).take 40, fetch1 f.downloadUrl = fetch2 f.downloadUrl) →
      processRepoHandler repoId info tree fetch1 svc s =
        processRepoHandler repoId info tree fetch2 svc s := by
  intro repoId info tree fetch1 fetch2 svc s h
  unfold processRepoHandler
  cases info with
  | error e => rfl
  | ok u =>
    dsimp only
    have hp : processFileBatches fetch1 svc ((getAllFiles tree).take 40) =
        processFileBatches fetch2 svc ((getAllFiles tree).take 40) :=
      processFileBatchesF_congr _ _ _ _ _ h
    rw [hp]

/-- Claim C10: ingestion processes at most the first 40 listed files:
a successful run reports `processedFiles = min(listed, 40)`, and the
handler's behaviour depends on the fetch oracle only at the first 40
files' download urls (files past the 40th are never fetched). -/
theorem C10_max_files_limit :
    (∀ (repoId : String) (tree : GhNode) (fetch : String → Option String)
       (svc : String → Option (List ℝ)) (s : Store) (pf pc : Nat),
       (processRepoHandler repoId (Except.ok ()) tree fetch svc s).1 = Outcome.indexed pf pc →
       pf = min (getAllFiles tree).length 40) ∧
    (∀ (repoId : String) (info : Except String Unit) (tree : GhNode)
       (fetch1 fetch2 : String → Option String) (svc : String → Option (List ℝ)) (s : Store),
       (∀ f ∈ (getAllFiles tree).take 40, fetch1 f.downloadUrl = fetch2 f.downloadUrl) →
       processRepoHandler repoId info tree fetch1 svc s =
         processRepoHandler repoId info tree fetch2 svc s) :=
  ⟨handler_indexed_pf, handler_fetch_agree⟩

/-- Witness for C10 at the one-file repository. -/
theorem C10_max_files_limit_witness :
    ((processRepoHandler "o/r" (Except.ok ()) exTree exFetch exSvc exStore0).1 =
       Outcome.indexed 1 1) ∧
    (1 = min (getAllFiles exTree).length 40) ∧
    ((∀ f ∈ (getAllFiles exTree).take 40, exFetch f.downloadUrl = exFetch f.downloadUrl) ∧
     processRepoHandler "o/r" (Except.ok ()) exTree exFetch exSvc exStore0 =
       processRepoHandler "o/r" (Except.ok ()) exTree exFetch exSvc exStore0) :=
  ⟨by decide,
   C10_max_files_limit.1 "o/r" exTree exFetch exSvc exStore0 1 1 (by decide),
   fun _ _ => rfl,
   C10_max_files_limit.2 "o/r" (Except.ok ()) exTree exFetch exFetch exSvc exStore0
     (fun _ _ => rfl)⟩

/-! ### Chunker token-bound lemmas and claims C2, C4 -/

theorem estimateTokens_empty : estimateTokens "" = 1 := rfl

theorem sizeStep_inv (fm : FileMeta) (maxTokens : Nat) (hmax : 1 ≤ maxTokens)
    (st : SizeState) (line : String)
    (hcur : estimateTokens st.currentChunk ≤ maxTokens)
    (hchunks : ∀ c ∈ st.chunks, sizeFlushShape maxTokens c) :
    estimateTokens (sizeStep fm maxTokens st line).currentChunk ≤ maxTokens ∧
    ∀ c ∈ (sizeStep fm maxTokens st line).chunks, sizeFlushShape maxTokens c := by
  unfold sizeStep
  dsimp only
  split
  · rename_i hover
    refine ⟨by simpa [estimateTokens_empty] using hmax, ?_⟩
    intro c hc
    rw [pushChunk] at hc
    rcases List.mem_append.mp hc with h | h
    · exact hchunks c h
    · rcases List.mem_singleton.mp h with rfl
      exact ⟨hover, st.currentChunk, line, String.append_assoc _ _ _, hcur⟩
  · rename_i hle
    push_neg at hle
    exact ⟨hle, hchunks⟩

theorem sizeLoop_inv (fm : FileMeta) (maxTokens : Nat) (hmax : 1 ≤ maxTokens) :
    ∀ (lines : List String) (st : SizeState),
      estimateTokens st.currentChunk ≤ maxTokens →
      (∀ c ∈ st.chunks, sizeFlushShape maxTokens c) →
      estimateTokens (lines.foldl (sizeStep fm maxTokens) st).currentChunk ≤ maxTokens ∧
      ∀ c ∈ (lines.foldl (sizeStep fm maxTokens) st).chunks, sizeFlushShape maxTokens c := by
  intro lines
  induction lines with
  | nil => intro st h1 h2; exact ⟨h1, h2⟩
  | cons l rest ih =>
    intro st h1 h2
    have step := sizeStep_inv fm maxTokens hmax st l h1 h2
    exact ih _ step.1 step.2

theorem chunkBySize_dropLast (content : String) (fm : FileMeta) (maxTokens : Nat)
    (hmax : 1 ≤ maxTokens) :
    ∀ c ∈ (chunkBySize content fm maxTokens).dropLast, sizeFlushShape maxTokens c := by
  intro c hc
  unfold chunkBySize at hc
  dsimp only at hc
  have base := sizeLoop_inv fm maxTokens hmax (splitChar '\n' content)
    { currentChunk := "", chunkNumber := 1, chunks := [] }
    (by simpa [estimateTokens_empty] using hmax) (by intro c hc; simp at hc)
  split at hc
  · exact base.2 c (List.dropLast_sublist _ |>.mem hc)
  · rw [pushChunk, List.dropLast_concat] at hc
    exact base.2 c hc

theorem jstsSizeCheck_props (fm : FileMeta) (imports : String) (maxTokens : Nat)
    (hmax : 1 ≤ maxTokens) (st : JSState) :
    (jstsSizeCheck fm imports maxTokens st).blockDepth = st.blockDepth ∧
    (jstsSizeCheck fm imports maxTokens st).inImportSection = st.inImportSection ∧
    ((jstsSizeCheck fm imports maxTokens st).blockDepth = 0 →
      estimateTokens (jstsSizeCheck fm imports maxTokens st).currentChunk ≤ maxTokens) := by
  unfold jstsSizeCheck
  split
  · refine ⟨rfl, rfl, fun _ => ?_⟩
    simpa [estimateTokens_empty] using hmax
  · rename_i hc
    refine ⟨rfl, rfl, fun hdep => ?_⟩
    by_contra hgt
    push_neg at hgt
    apply hc
    simp only [Bool.and_eq_true, decide_eq_true_eq, beq_iff_eq]
    exact ⟨hgt, hdep⟩

theorem jstsStep_props (fm : FileMeta) (imports : String) (maxTokens : Nat)
    (hmax : 1 ≤ maxTokens) (st : JSState) (line : String) (hImp : st.inImportSection = false) :
    (jstsStep fm imports maxTokens st line).inImportSection = false ∧
    ((jstsStep fm imports maxTokens st line).blockDepth = 0 →
      estimateTokens (jstsStep fm imports maxTokens st line).currentChunk ≤ maxTokens) := by
  unfold jstsStep
  rw [hImp]
  simp only [Bool.false_and, Bool.false_eq_true, if_false]
  constructor
  · rw [(jstsSizeCheck_props fm imports maxTokens hmax _).2.1]
    split <;> rfl
  · exact (jstsSizeCheck_props fm imports maxTokens hmax _).2.2

/-- The depth-0 size invariant of `chunkJSTS`: after any prefix of the
line loop, whenever the brace depth is back at top level the
accumulated (preamble-free) chunk body estimates within `maxTokens`.
Since a declaration-start flush happens only at depth 0, every chunk
flushed by a new declaration obeys the bound on its body. -/
theorem jstsFold_depth_bound (fm : FileMeta) (imports : String) (maxTokens : Nat)
    (hmax : 1 ≤ maxTokens) :
    ∀ (lines : List String) (st : JSState), st.inImportSection = false →
      (st.blockDepth = 0 → estimateTokens st.currentChunk ≤ maxTokens) →
      ((lines.foldl (jstsStep fm imports maxTokens) st).inImportSection = false ∧
       ((lines.foldl (jstsStep fm imports maxTokens) st).blockDepth = 0 →
         estimateTokens
           (lines.foldl (jstsStep fm imports maxTokens) st).currentChunk ≤ maxTokens)) := by
  intro lines
  induction lines with
  | nil => intro st h1 h2; exact ⟨h1, h2⟩
  | cons l rest ih =>
    intro st h1 h2
    have step := jstsStep_props fm imports maxTokens hmax st l h1
    exact ih _ step.1 step.2

/-- Claim C2 counterexample: `chunkCodeFile` on a four-line text file
with `maxTokens = 3` emits two chunks; the first is not the final
flush of the file yet `estimateTokens` of its content is 5 > 3, and it
spans two lines of a plain-text file, so it does not correspond to a
single unsplittable declaration. -/
theorem C2_token_bound_counterexample :
    (chunkCodeFile smallTextFile "notes.txt" 3).length = 2 ∧
    ((chunkCodeFile smallTextFile "notes.txt" 3).map fun c => estimateTokens c.content) =
      [5, 4] ∧
    ((chunkCodeFile smallTextFile "notes.txt" 3).map fun c => c.metadata.name) =
      ["Chunk 1", "Chunk 2"] ∧
    ¬ estimateTokens (((chunkCodeFile smallTextFile "notes.txt" 3).getD 0 defaultChunk).content)
        ≤ 3 := by
  decide

/-- Claim C2 (amended): the splitter flushes only after the estimate
exceeds `maxTokens`, so non-final chunks satisfy the bound up to their
last appended line rather than outright: every chunk `chunkBySize`
emits before the final flush exceeds `maxTokens` but was within the
bound before its last line was appended; and in `chunkJSTS`, whenever
the loop is at top level (in particular at every declaration-start
flush, which only fires at depth 0) the accumulated body excluding the
duplicated preamble estimates within `maxTokens`. -/
theorem C2_token_bound_amended :
    (∀ (content : String) (fm : FileMeta) (maxTokens : Nat), 1 ≤ maxTokens →
       ∀ c ∈ (chunkBySize content fm maxTokens).dropLast, sizeFlushShape maxTokens c) ∧
    (∀ (fm : FileMeta) (imports : String) (maxTokens : Nat) (lines : List String),
       1 ≤ maxTokens →
       ((lines.foldl (jstsStep fm imports maxTokens) jstsInitState).blockDepth = 0 →
         estimateTokens
           (lines.foldl (jstsStep fm imports maxTokens) jstsInitState).currentChunk
           ≤ maxTokens)) := by
  constructor
  · intro content fm maxTokens hmax
    exact chunkBySize_dropLast content fm maxTokens hmax
  · intro fm imports maxTokens lines hmax
    exact (jstsFold_depth_bound fm imports maxTokens hmax lines jstsInitState rfl
      (fun _ => by simpa [estimateTokens_empty] using hmax)).2

/-- Witness for C2 (amended): the text counterexample file at
`maxTokens = 3`, and a two-line function file for the JS invariant. -/
theorem C2_token_bound_amended_witness :
    (1 ≤ 3) ∧
    (∀ c ∈ (chunkBySize smallTextFile
        { path := "notes.txt", language := "text", extension := "txt" } 3).dropLast,
      sizeFlushShape 3 c) ∧
    (((["function foo() \x7b", "\x7d"] : List String).foldl
        (jstsStep { path := "a.js", language := "javascript", extension := "js" } "" 3)
        jstsInitState).blockDepth = 0 →
      estimateTokens
        ((["function foo() \x7b", "\x7d"] : List String).foldl
          (jstsStep { path := "a.js", language := "javascript", extension := "js" } "" 3)
          jstsInitState).currentChunk ≤ 3) :=
  ⟨by decide,
   C2_token_bound_amended.1 smallTextFile
     { path := "notes.txt", language := "text", extension := "txt" } 3 (by decide),
   C2_token_bound_amended.2
     { path := "a.js", language := "javascript", extension := "js" } "" 3
     ["function foo() \x7b", "\x7d"] (by decide)⟩

/-- Claim C4 (evaluation at the failing input): chunking the ten-line
file produces two chunks, not one — the first is an `Unnamed section`
chunk whose content duplicates the import block (the second pass
re-accumulates the import lines because `inImportSection` is reset to
`false` before the loop, chunker.js line 102, disabling the skip
branch of lines 108-114); only the second chunk is named `foo`. -/
theorem C4_ten_line_scenario_eval :
    ((chunkCodeFile tenLineJSFile "src/example.js" 400).map fun c => c.metadata.name) =
      ["Unnamed section", "foo"] ∧
    (chunkCodeFile tenLineJSFile "src/example.js" 400).length = 2 ∧
    ((chunkCodeFile tenLineJSFile "src/example.js" 400).map fun c => c.content) =
      ["import a;\nimport b;\nimport c;\nimport a;\nimport b;\nimport c;\n\n",
       "import a;\nimport b;\nimport c;\nfunction foo() \x7b\n  const x = 1;\n  const y = 2;\n  return x + y;\n\x7d\n\n"] := by
  decide

/-! ### Retrieval path: concrete evaluations -/

theorem sqrt25 : Real.sqrt 25 = 5 := by
  rw [show (25 : ℝ) = 5 ^ 2 by norm_num, Real.sqrt_sq]
  norm_num

theorem cosAA : cosineSimilarity [(1 : ℝ), 0] [1, 0] = 1 := by
  norm_num [cosineSimilarity, sumSq, dotL, Real.sqrt_one]

theorem cosAB : cosineSimilarity [(1 : ℝ), 0] [3, 4] = 3 / 5 := by
  norm_num [cosineSimilarity, sumSq, dotL, Real.sqrt_one, sqrt25]

theorem collQuery_ex :
    collQuery [recA, recB] [1, 0] 2 =
      [{ id := "chunk_0", document := "docA", metadata := exMeta, distance := 0 },
       { id := "chunk_1", document := "docB", metadata := exMeta, distance := 2/5 }] := by
  unfold collQuery
  rw [if_neg (by norm_num)]
  dsimp only [List.map, recA, recB]
  have h1 : (1 : ℝ) - cosineSimilarity [1, 0] [1, 0] = 0 := by rw [cosAA]; ring
  have h2 : (1 : ℝ) - cosineSimilarity [1, 0] [3, 4] = 2/5 := by rw [cosAB]; norm_num
  rw [h1, h2]
  rw [List.insertionSort, List.insertionSort, List.insertionSort, List.orderedInsert]
  rw [List.orderedInsert, if_pos (by norm_num [distLe])]
  rfl

theorem querySC_ex :
    querySimilarChunks [recA, recB] [1, 0] 2 =
      [{ content := "docA", metadata := exMeta, distance := 1 },
       { content := "docB", metadata := exMeta, distance := 2/5 }] := by
  unfold querySimilarChunks
  rw [if_neg (by norm_num), collQuery_ex]
  dsimp only [List.map]
  rw [if_pos rfl, if_neg (by norm_num)]

theorem collQuery_exA :
    collQuery [recA] [1, 0] 5 =
      [{ id := "chunk_0", document := "docA", metadata := exMeta, distance := 0 }] := by
  unfold collQuery
  rw [if_neg (by norm_num)]
  dsimp only [List.map, recA]
  have h1 : (1 : ℝ) - cosineSimilarity [1, 0] [1, 0] = 0 := by rw [cosAA]; ring
  rw [h1]
  rw [List.insertionSort, List.insertionSort, List.orderedInsert]
  rfl

theorem querySC_exA :
    querySimilarChunks [recA] [1, 0] 5 =
      [{ content := "docA", metadata := exMeta, distance := 1 }] := by
  unfold querySimilarChunks
  rw [if_neg (by norm_num), collQuery_exA]
  dsimp only [List.map]
  rw [if_pos rfl]

theorem collQuery_exB :
    collQuery [recB] [1, 0] 1 =
      [{ id := "chunk_1", document := "docB", metadata := exMeta, distance := 2/5 }] := by
  unfold collQuery
  rw [if_neg (by norm_num)]
  dsimp only [List.map, recB]
  have h2 : (1 : ℝ) - cosineSimilarity [1, 0] [3, 4] = 2/5 := by rw [cosAB]; norm_num
  rw [h2]
  rw [List.insertionSort, List.insertionSort, List.orderedInsert]
  rfl

theorem querySC_exB :
    querySimilarChunks [recB] [1, 0] 1 =
      [{ content := "docB", metadata := exMeta, distance := 2/5 }] := by
  unfold querySimilarChunks
  rw [if_neg (by norm_num), collQuery_exB]
  dsimp only [List.map]
  rw [if_neg (by norm_num)]

/-! ### Retrieval path: ordering and range lemmas, claims C1 and C7 -/

theorem collQuery_sorted (data : List VRecord) (q : List ℝ) (n : Nat) :
    List.Sorted distLe (collQuery data q n) := by
  unfold collQuery
  split
  · exact List.sorted_nil
  · exact List.Pairwise.sublist (List.take_sublist _ _) (List.sorted_insertionSort distLe _)

theorem collQuery_length_le (data : List VRecord) (q : List ℝ) (n : Nat) :
    (collQuery data q n).length ≤ n := by
  unfold collQuery
  split
  · simp
  · exact List.length_take_le _ _

theorem collQuery_mem (data : List VRecord) (q : List ℝ) (n : Nat) (r : RawResult)
    (h : r ∈ collQuery data q n) :
    ∃ item ∈ data, r.distance = 1 - cosineSimilarity q item.embedding := by
  unfold collQuery at h
  split at h
  · simp at h
  · have h2 := (List.perm_insertionSort distLe _).mem_iff.mp (List.mem_of_mem_take h)
    obtain ⟨item, hitem, rfl⟩ := List.mem_map.mp h2
    exact ⟨item, hitem, rfl⟩

theorem raw_distance_range (data : List VRecord) (q : List ℝ) (n : Nat) (r : RawResult)
    (h : r ∈ collQuery data q n) : 0 ≤ r.distance ∧ r.distance ≤ 2 := by
  obtain ⟨item, _, hd⟩ := collQuery_mem data q n r h
  have hb := cosineSimilarity_bounds q item.embedding
  constructor
  · rw [hd]; linarith [hb.2]
  · rw [hd]; linarith [hb.1]

theorem querySimilarChunks_length_le (data : List VRecord) (q : List ℝ) (k : Nat) :
    (querySimilarChunks data q k).length ≤ k := by
  unfold querySimilarChunks
  split
  · simp
  · rw [List.length_map]
    exact collQuery_length_le data q k

theorem querySimilarChunks_range (data : List VRecord) (q : List ℝ) (k : Nat)
    (r : QueryResult) (h : r ∈ querySimilarChunks data q k) :
    (0 ≤ r.distance ∧ r.distance ≤ 2) ∧ r.distance ≠ 0 := by
  unfold querySimilarChunks at h
  split at h
  · simp at h
  · obtain ⟨raw, hraw, rfl⟩ := List.mem_map.mp h
    have hr := raw_distance_range data q k raw hraw
    dsimp only
    split
    · exact ⟨⟨by norm_num, by norm_num⟩, by norm_num⟩
    · rename_i hne
      exact ⟨hr, hne⟩

theorem querySimilarChunks_sorted (data : List VRecord) (q : List ℝ) (k : Nat)
    (h : ∀ item ∈ data, 1 - cosineSimilarity q item.embedding ≠ 0) :
    List.Sorted (fun a b : QueryResult => a.distance ≤ b.distance)
      (querySimilarChunks data q k) := by
  unfold querySimilarChunks
  split
  · exact List.sorted_nil
  · refine List.pairwise_map.mpr ?_
    refine List.Pairwise.imp_of_mem ?_ (collQuery_sorted data q k)
    intro a b ha hb hab
    obtain ⟨ia, hia, hda⟩ := collQuery_mem data q k a ha
    obtain ⟨ib, hib, hdb⟩ := collQuery_mem data q k b hb
    have hza : a.distance ≠ 0 := by rw [hda]; exact h ia hia
    have hzb : b.distance ≠ 0 := by rw [hdb]; exact h ib hib
    dsimp only
    rw [if_neg hza, if_neg hzb]
    exact hab

theorem sorted_distancesNondecreasing (rs : List QueryResult)
    (h : List.Sorted (fun a b : QueryResult => a.distance ≤ b.distance) rs) :
    distancesNondecreasing rs := by
  intro i hi
  have hi' : i < rs.length := Nat.lt_of_succ_lt hi
  rw [List.getD_eq_getElem rs defaultQueryResult hi', List.getD_eq_getElem rs defaultQueryResult hi]
  have hg := List.pairwise_iff_get.mp h ⟨i, hi'⟩ ⟨i + 1, hi⟩ (by simp)
  simpa [List.get_eq_getElem] using hg

/-- Claim C1 counterexample: a collection holding a record at distance
0 (same direction as the query) and a record at distance `2/5`; the
pre-format query is sorted `[0, 2/5]`, but `querySimilarChunks`
replaces the falsy `0` by `1.0`, returning distances `[1, 2/5]`, which
are not non-decreasing. -/
theorem C1_retrieval_ordering_counterexample :
    querySimilarChunks [recA, recB] [1, 0] 2 =
      [{ content := "docA", metadata := exMeta, distance := 1 },
       { content := "docB", metadata := exMeta, distance := 2/5 }] ∧
    ¬ distancesNondecreasing (querySimilarChunks [recA, recB] [1, 0] 2) := by
  refine ⟨querySC_ex, ?_⟩
  rw [querySC_ex]
  intro hmono
  have hx := hmono 0 (by norm_num)
  rw [List.getD_eq_getElem _ defaultQueryResult (by norm_num),
      List.getD_eq_getElem _ defaultQueryResult (by norm_num)] at hx
  norm_num at hx

/-- Claim C1 (amended): the retrieval path returns at most `k`
results; the underlying query is sorted ascending by distance, and the
returned sequence is ordered by non-decreasing distance whenever no
stored record sits at distance exactly 0 from the query (the
`|| 1.0` formatting of `querySimilarChunks` replaces an exact-zero
distance by `1.0`, which can break the order at position 0). -/
theorem C1_retrieval_ordering_amended :
    (∀ (data : List VRecord) (q : List ℝ) (k : Nat),
       (querySimilarChunks data q k).length ≤ k) ∧
    (∀ (data : List VRecord) (q : List ℝ) (k : Nat),
       List.Sorted distLe (collQuery data q k)) ∧
    (∀ (data : List VRecord) (q : List ℝ) (k : Nat),
       (∀ item ∈ data, 1 - cosineSimilarity q item.embedding ≠ 0) →
       distancesNondecreasing (querySimilarChunks data q k)) :=
  ⟨querySimilarChunks_length_le, collQuery_sorted,
   fun data q k h => sorted_distancesNondecreasing _ (querySimilarChunks_sorted data q k h)⟩

/-- Witness for C1 (amended) at a one-record collection with nonzero
distance. -/
theorem C1_retrieval_ordering_amended_witness :
    ((querySimilarChunks [recB] [1, 0] 1).length ≤ 1) ∧
    (∀ item ∈ [recB], 1 - cosineSimilarity [1, 0] item.embedding ≠ 0) ∧
    distancesNondecreasing (querySimilarChunks [recB] [1, 0] 1) :=
  ⟨C1_retrieval_ordering_amended.1 [recB] [1, 0] 1,
   by
     intro item hitem
     rw [List.mem_singleton.mp hitem]
     show (1 : ℝ) - cosineSimilarity [1, 0] recB.embedding ≠ 0
     rw [show recB.embedding = [(3:ℝ), 4] from rfl, cosAB]
     norm_num,
   C1_retrieval_ordering_amended.2.2 [recB] [1, 0] 1
     (by
       intro item hitem
       rw [List.mem_singleton.mp hitem]
       show (1 : ℝ) - cosineSimilarity [1, 0] recB.embedding ≠ 0
       rw [show recB.embedding = [(3:ℝ), 4] from rfl, cosAB]
       norm_num)⟩

/-- Claim C7 counterexample: a stored record whose embedding has the
same direction as the query (cosine similarity exactly 1, raw distance
0) is returned by `querySimilarChunks` with distance `1.0`, not 0 —
the `|| 1.0` default swallows the exact-zero distance. -/
theorem C7_distance_range_counterexample :
    cosineSimilarity [1, 0] recA.embedding = 1 ∧
    querySimilarChunks [recA] [1, 0] 5 =
      [{ content := "docA", metadata := exMeta, distance := 1 }] ∧
    (1 : ℝ) ≠ 0 :=
  ⟨cosAA, querySC_exA, by norm_num⟩

/-- Claim C7 (amended): every returned `QueryResult` has distance in
`[0, 2]`, but never exactly 0: a record at identical direction gets
raw distance 0 in the collection query and the formatter replaces that
0 by `1.0`. -/
theorem C7_distance_range_amended :
    (∀ (data : List VRecord) (q : List ℝ) (k : Nat),
       ∀ r ∈ querySimilarChunks data q k, 0 ≤ r.distance ∧ r.distance ≤ 2) ∧
    (∀ (data : List VRecord) (q : List ℝ) (k : Nat),
       ∀ r ∈ querySimilarChunks data q k, r.distance ≠ 0) :=
  ⟨fun data q k r h => (querySimilarChunks_range data q k r h).1,
   fun data q k r h => (querySimilarChunks_range data q k r h).2⟩

/-- Witness for C7 (amended) at the one-record collection. -/
theorem C7_distance_range_amended_witness :
    (({ content := "docA", metadata := exMeta, distance := 1 } : QueryResult) ∈
      querySimilarChunks [recA] [1, 0] 5) ∧
    (0 ≤ ({ content := "docA", metadata := exMeta, distance := 1 } : QueryResult).distance ∧
     ({ content := "docA", metadata := exMeta, distance := 1 } : QueryResult).distance ≤ 2) ∧
    ({ content := "docA", metadata := exMeta, distance := 1 } : QueryResult).distance ≠ 0 := by
  have hmem : ({ content := "docA", metadata := exMeta, distance := 1 } : QueryResult) ∈
      querySimilarChunks [recA] [1, 0] 5 := by
    rw [querySC_exA]
    exact List.mem_singleton_self _
  exact ⟨hmem, C7_distance_range_amended.1 [recA] [1, 0] 5 _ hmem,
         C7_distance_range_amended.2 [recA] [1, 0] 5 _ hmem⟩

end DevInsight
